import Mathlib

/-!
Shallow embedding of the KEGG flat-file record layer of cobrababel
(src/cobrababel/kegg): KeggEnzyme, KeggReaction, KeggOrganism entities,
the KeggDatabase record reader / upsert / store-load pipeline, and the
organism OTU-representative reconciliation.

Strings are modelled as `List Char` (`Str`), and the Python string
primitives used by the source (strip, split, find, replace, lower,
slicing) are defined below as executable Lean functions.  Fallible
Python code (out-of-range indexing, unbound locals) is modelled with
`Option`.  The `warnings.warn` effect is modelled as an output list of
warning messages threaded through the parsers.
-/

set_option maxRecDepth 10000
set_option maxHeartbeats 2000000

abbrev Str := List Char

/-- Python whitespace characters, as used by `str.strip()` and `str.split()`. -/
def isWS (c : Char) : Bool :=
  c = ' ' || c = '\t' || c = '\n' || c = '\x0d' || c = '\x0b' || c = '\x0c'

/-- Strip characters satisfying `p` from the right end (Python `rstrip`). -/
def pyRStrip (p : Char → Bool) (s : Str) : Str :=
  (s.reverse.dropWhile p).reverse

/-- Strip characters satisfying `p` from both ends (Python `strip` with a char set). -/
def pyStripP (p : Char → Bool) (s : Str) : Str :=
  (pyRStrip p s).dropWhile p

/-- Python `str.strip()` (no argument): strip whitespace from both ends. -/
def pyStrip (s : Str) : Str := pyStripP isWS s

/-- Python `str.strip(';')`. -/
def stripSemi (s : Str) : Str := pyStripP (fun c => c = ';') s

/-- Python `str.strip('\n')` as applied by the record reader. -/
def stripNl (s : Str) : Str := pyStripP (fun c => c = '\n') s

/-- Helper for `pySplitWS`: `acc` is the current word, reversed. -/
def splitWsGo : Str → Str → List Str
  | [], acc => if acc = [] then [] else [acc.reverse]
  | c :: cs, acc =>
    if isWS c then
      (if acc = [] then splitWsGo cs [] else acc.reverse :: splitWsGo cs [])
    else splitWsGo cs (c :: acc)

/-- Python `str.split()` (no argument): split on whitespace runs, no empty words. -/
def pySplitWS (s : Str) : List Str := splitWsGo s []

/-- Python `sep.join(words)` for a single-character separator. -/
def joinSep (sep : Char) : List Str → Str
  | [] => []
  | [g] => g
  | g :: gs => g ++ sep :: joinSep sep gs

/-- Python `' '.join(words)`. -/
def joinSpace : List Str → Str := joinSep ' '

/-- Python `str.split(sep)` for a single-character separator: keeps empty pieces,
always returns at least one piece. -/
def splitSepGo (sep : Char) : Str → Str → List Str
  | [], acc => [acc.reverse]
  | c :: cs, acc =>
    if c = sep then acc.reverse :: splitSepGo sep cs []
    else splitSepGo sep cs (c :: acc)

def pySplitSep (sep : Char) (s : Str) : List Str := splitSepGo sep s []

/-- Index of the first occurrence of `pat` in `s` (Python `str.find`, found case). -/
def findSubIdx (pat : Str) : Str → Option Nat
  | [] => if pat.isPrefixOf ([] : Str) then some 0 else none
  | c :: cs =>
    if pat.isPrefixOf (c :: cs) then some 0
    else (findSubIdx pat cs).map (· + 1)

/-- Python `str.replace(pat, rep)` for a non-empty pattern: replace every
non-overlapping occurrence, scanning left to right. -/
def pyReplace (s pat rep : Str) : Str :=
  match s with
  | [] => []
  | c :: cs =>
    if h : pat ≠ [] ∧ pat.isPrefixOf (c :: cs) then
      rep ++ pyReplace ((c :: cs).drop pat.length) pat rep
    else c :: pyReplace cs pat rep
termination_by s.length
decreasing_by
  · simp only [List.length_drop, List.length_cons]
    have : 1 ≤ pat.length := List.length_pos.mpr h.1
    omega
  · simp

/-- Python `str.lower()` (ASCII range, as used for KEGG organism codes). -/
def pyLower (s : Str) : Str := s.map Char.toLower

/-- Lexicographic less-or-equal on strings, as used by Python string sorting. -/
def strLe : Str → Str → Bool
  | [], _ => true
  | _ :: _, [] => false
  | a :: as, b :: bs => if a < b then true else if a = b then strLe as bs else false

/-- Insert into a sorted list: before the first element `y` with `le x y`. -/
def insBy (le : α → α → Bool) (x : α) : List α → List α
  | [] => [x]
  | y :: ys => if le x y then x :: y :: ys else y :: insBy le x ys

/-- Stable insertion sort (models Python's stable `sorted`/`list.sort`). -/
def sortBy (le : α → α → Bool) : List α → List α
  | [] => []
  | x :: xs => insBy le x (sortBy le xs)

/-- Python dict assignment `d[k] = v` on an association list: replace the value
in place when the key exists, else append at the end. -/
def assocSet (l : List (Str × α)) (k : Str) (v : α) : List (Str × α) :=
  match l with
  | [] => [(k, v)]
  | (k', v') :: t => if k' = k then (k, v) :: t else (k', v') :: assocSet t k v

/-- Python dict lookup `d[k]` on an association list. -/
def assocGet (l : List (Str × α)) (k : Str) : Option α :=
  match l with
  | [] => none
  | (k', v') :: t => if k' = k then some v' else assocGet t k

def blank12 : Str := List.replicate 12 ' '

def slash3 : Str := "///".toList

/-! ## KeggEnzyme (src/cobrababel/kegg/KeggEnzyme.py) -/

/-- The fields of a KEGG enzyme record object (`KeggEnzyme.__init__`).
`genes` is a Python dict modelled as an insertion-ordered association list. -/
structure KEnz where
  id : Option Str := none
  name : List Str := []
  obsolete : Nat := 0
  classname : List Str := []
  sysname : Option Str := none
  reaction : List Str := []
  rxnid : List Str := []
  allreactions : List Str := []
  substrate : List Str := []
  product : List Str := []
  comment : List Str := []
  pathway : List (Str × Str) := []
  orthology : List (Str × Str) := []
  genes : List (Str × List Str) := []
deriving DecidableEq

/-- Reaction ids extracted from a `[RN:...]` bracket in a REACTION value
(KeggEnzyme.parse, REACTION branch): `val[start_pos+4:-1].split()`. -/
def rnIds (val : Str) : List Str :=
  match findSubIdx "[RN:".toList val with
  | some p => pySplitWS (val.dropLast.drop (p + 4))
  | none => []

/-- Dispatch of one (field-name, value) pair in `KeggEnzyme.parse` for every
field other than ENTRY.  Unrecognized field names fall through the `elif`
chain and are silently ignored (the enzyme parser has no `else` branch). -/
def enzApply (tag : Str) (value : Str) (e : KEnz) : KEnz :=
  if tag = "NAME".toList then { e with name := e.name ++ [stripSemi value] }
  else if tag = "CLASS".toList then { e with classname := e.classname ++ [stripSemi value] }
  else if tag = "SYSNAME".toList then { e with sysname := some value }
  else if tag = "REACTION".toList then
    let val := stripSemi value
    { e with rxnid := e.rxnid ++ rnIds val, reaction := e.reaction ++ [val] }
  else if tag = "ALL_REAC".toList then { e with allreactions := e.allreactions ++ [stripSemi value] }
  else if tag = "SUBSTRATE".toList then { e with substrate := e.substrate ++ [stripSemi value] }
  else if tag = "PRODUCT".toList then { e with product := e.product ++ [stripSemi value] }
  else if tag = "COMMENT".toList then { e with comment := e.comment ++ [value] }
  else if tag = "PATHWAY".toList then
    { e with pathway := e.pathway ++ [(value.take 7, pyStrip (value.drop 8))] }
  else if tag = "ORTHOLOGY".toList then
    { e with orthology := e.orthology ++ [(value.take 6, pyStrip (value.drop 7))] }
  else if tag = "GENES".toList then
    match findSubIdx [':'] value with
    | some pos =>
      { e with genes := assocSet e.genes (pyLower (value.take pos)) (pySplitWS (value.drop (pos + 2))) }
    | none =>
      -- Python `value.find(':')` returns -1 here, so `value[:pos]` is `value[:-1]`
      -- and `value[pos+2:]` is `value[1:]`.
      { e with genes := assocSet e.genes (pyLower value.dropLast) (pySplitWS (value.drop 1)) }
  else e

/-- Parse state: the enzyme under construction, the `field_name` loop variable
(`none` until the first field line is seen; a continuation line before any field
line raises in Python, modelled as failure), and the emitted warnings
(`KeggEnzyme.parse` contains no `warn` call, so no branch appends to it). -/
structure EPState where
  enz : KEnz
  fn : Option Str
  ws : List Str
deriving DecidableEq

/-- One loop iteration of `KeggEnzyme.parse` on a non-terminator line.
The ENTRY branch reads `parts[1]` and `parts[2]` unconditionally; a value with
fewer than three whitespace tokens raises IndexError, modelled as `none`. -/
def enzStep (st : EPState) (line : Str) : Option EPState :=
  let fn := if line.take 12 = blank12 then st.fn else some (pyStrip (line.take 12))
  let value := pyStrip (line.drop 12)
  match fn with
  | none => none
  | some tag =>
    if tag = "ENTRY".toList then
      let parts := pySplitWS value
      match parts[1]?, parts[2]? with
      | some pid, some p2 =>
        let ob := if p2 = "Obsolete".toList then 1 else st.enz.obsolete
        some { enz := { st.enz with id := some pid, obsolete := ob },
               fn := fn, ws := st.ws }
      | _, _ => none
    else
      some { enz := enzApply tag value st.enz, fn := fn, ws := st.ws }

/-- The loop of `KeggEnzyme.parse`: stop at a line whose first three characters
are `///`; running off the end of the record also returns normally. -/
def enzGo (st : EPState) : List Str → Option EPState
  | [] => some st
  | line :: rest =>
    if line.take 3 = slash3 then some st
    else
      match enzStep st line with
      | none => none
      | some st' => enzGo st' rest

namespace KeggEnzyme

def parse (record : List Str) : Option KEnz :=
  (enzGo ⟨{}, none, []⟩ record).map (·.enz)

def parseWarns (record : List Str) : Option (List Str) :=
  (enzGo ⟨{}, none, []⟩ record).map (·.ws)

/-- Python formats `self.id` with `'{0}'.format`; `None` prints as `"None"`. -/
def fmtOptId : Option Str → Str
  | none => "None".toList
  | some s => s

/-- The ENTRY line of `KeggEnzyme.make_record`: `EC <id>` padded with spaces to
column 30 (obsolete) or 40 (active) before the suffix.  `range(pad)` is empty
for a non-positive pad, matching truncated subtraction on `Nat`. -/
def entryLine (e : KEnz) : Str :=
  let entry := "ENTRY       EC ".toList ++ fmtOptId e.id
  if e.obsolete ≠ 0 then
    entry ++ List.replicate (30 - entry.length) ' ' ++ "Obsolete  Enzyme".toList
  else
    entry ++ List.replicate (40 - entry.length) ' ' ++ "Enzyme".toList

/-- Continuation lines of a semicolon-wrapped multi-value field: every line but
the last gets a trailing `;`. -/
def semiMid : List Str → List Str
  | [] => []
  | [x] => [blank12 ++ x]
  | x :: xs => (blank12 ++ x ++ [';']) :: semiMid xs

/-- A whole semicolon-wrapped field segment; `tag` is the 12-character prefix. -/
def semiSeg (tag : Str) (xs : List Str) : List Str :=
  match xs with
  | [] => []
  | [x] => [tag ++ x]
  | x :: xs => (tag ++ x ++ [';']) :: semiMid xs

/-- COMMENT segment: continuation lines carry no semicolons. -/
def commentSeg (xs : List Str) : List Str :=
  match xs with
  | [] => []
  | x :: xs => ("COMMENT     ".toList ++ x) :: xs.map (fun y => blank12 ++ y)

def fmtPair2 (p : Str × Str) : Str := p.1 ++ "  ".toList ++ p.2

/-- PATHWAY / ORTHOLOGY segment: `'{0}  {1}'.format(pair[0], pair[1])`. -/
def pairSeg (tag : Str) (ps : List (Str × Str)) : List Str :=
  match ps with
  | [] => []
  | p :: rest => (tag ++ fmtPair2 p) :: rest.map (fun q => blank12 ++ fmtPair2 q)

def fmtGene (g : Str × List Str) : Str := g.1 ++ ": ".toList ++ joinSpace g.2

/-- GENES segment: keys iterated in `sorted(self.genes)` order.  For the
association-list model of a dict (distinct keys) sorting the pairs by key
agrees with sorting the keys and looking each one up. -/
def genesSeg (gl : List (Str × List Str)) : List Str :=
  match sortBy (fun a b => strLe a.1 b.1) gl with
  | [] => []
  | g :: rest => ("GENES       ".toList ++ fmtGene g) :: rest.map (fun h => blank12 ++ fmtGene h)

def make_record (e : KEnz) : List Str :=
  entryLine e
    :: (semiSeg "NAME        ".toList e.name
        ++ semiSeg "CLASS       ".toList e.classname
        ++ (match e.sysname with
            | none => []
            | some s => ["SYSNAME     ".toList ++ s])
        ++ semiSeg "REACTION    ".toList e.reaction
        ++ semiSeg "ALL_REAC    ".toList e.allreactions
        ++ semiSeg "SUBSTRATE   ".toList e.substrate
        ++ semiSeg "PRODUCT     ".toList e.product
        ++ commentSeg e.comment
        ++ pairSeg "PATHWAY     ".toList e.pathway
        ++ pairSeg "ORTHOLOGY   ".toList e.orthology
        ++ genesSeg e.genes
        ++ [slash3])

end KeggEnzyme

example :
    KeggEnzyme.parse
      ["ENTRY       EC 1.1.1.1                 Enzyme".toList,
       "NAME        alcohol dehydrogenase".toList,
       "REACTION    R00754".toList,
       "///".toList]
      = some { id := some "1.1.1.1".toList,
               name := ["alcohol dehydrogenase".toList],
               reaction := ["R00754".toList] } := by decide

example :
    KeggEnzyme.make_record
      { id := some "1.1.1.1".toList,
        name := ["alcohol dehydrogenase".toList, "ADH".toList] }
      = ["ENTRY       EC 1.1.1.1                  Enzyme".toList,
         "NAME        alcohol dehydrogenase;".toList,
         "            ADH".toList,
         "///".toList] := by decide

/-! ## KeggReaction (src/cobrababel/kegg/KeggReaction.py), parser only -/

/-- The fields of a KEGG reaction record object (`KeggReaction.__init__`).
The 2-element lists built for PATHWAY/ORTHOLOGY/MODULE values are pairs. -/
structure KRxn where
  id : Option Str := none
  name : List Str := []
  definition : Option Str := none
  equation : Option Str := none
  remark : Option Str := none
  comment : List Str := []
  rpair : List (List Str) := []
  rclass : List (List Str) := []
  enzyme : List Str := []
  pathway : List (Str × Str) := []
  orthology : List (Str × Str) := []
  reference : List Str := []
  module : List (Str × Str) := []
deriving DecidableEq

/-- The message of `warn('Skipping field {0} with value {1}'.format(...))`. -/
def warnMsg (tag value : Str) : Str :=
  "Skipping field ".toList ++ tag ++ " with value ".toList ++ value

/-- Dispatch of one (field-name, value) pair in `KeggReaction.parse` for every
field other than ENTRY; returns the updated reaction and the warnings emitted
(the `else` branch warns about an unrecognized field). -/
def rxnApply (tag value : Str) (r : KRxn) : KRxn × List Str :=
  if tag = "NAME".toList then ({ r with name := r.name ++ [stripSemi value] }, [])
  else if tag = "DEFINITION".toList then ({ r with definition := some value }, [])
  else if tag = "EQUATION".toList then ({ r with equation := some value }, [])
  else if tag = "REMARK".toList then ({ r with remark := some value }, [])
  else if tag = "COMMENT".toList then ({ r with comment := r.comment ++ [value] }, [])
  else if tag = "RPAIR".toList then ({ r with rpair := r.rpair ++ [pySplitWS value] }, [])
  else if tag = "RCLASS".toList then ({ r with rclass := r.rclass ++ [pySplitWS value] }, [])
  else if tag = "ENZYME".toList then ({ r with enzyme := r.enzyme ++ pySplitWS value }, [])
  else if tag = "PATHWAY".toList then
    ({ r with pathway := r.pathway ++ [(value.take 7, pyStrip (value.drop 8))] }, [])
  else if tag = "ORTHOLOGY".toList then
    ({ r with orthology := r.orthology ++ [(value.take 6, pyStrip (value.drop 7))] }, [])
  else if tag = "REFERENCE".toList then ({ r with reference := r.reference ++ [value] }, [])
  else if tag = "MODULE".toList then
    ({ r with module := r.module ++ [(value.take 7, pyStrip (value.drop 9))] }, [])
  else (r, [warnMsg tag value])

structure RPState where
  rxn : KRxn
  fn : Option Str
  ws : List Str
deriving DecidableEq

/-- One loop iteration of `KeggReaction.parse` on a non-terminator line.
The ENTRY branch reads `parts[0]` unconditionally. -/
def rxnStep (st : RPState) (line : Str) : Option RPState :=
  let fn := if line.take 12 = blank12 then st.fn else some (pyStrip (line.take 12))
  let value := pyStrip (line.drop 12)
  match fn with
  | none => none
  | some tag =>
    if tag = "ENTRY".toList then
      match (pySplitWS value)[0]? with
      | some pid => some { rxn := { st.rxn with id := some pid }, fn := fn, ws := st.ws }
      | none => none
    else
      let (r, w) := rxnApply tag value st.rxn
      some { rxn := r, fn := fn, ws := st.ws ++ w }

def rxnGo (st : RPState) : List Str → Option RPState
  | [] => some st
  | line :: rest =>
    if line.take 3 = slash3 then some st
    else
      match rxnStep st line with
      | none => none
      | some st' => rxnGo st' rest

namespace KeggReaction

def parse (record : List Str) : Option KRxn :=
  (rxnGo ⟨{}, none, []⟩ record).map (·.rxn)

def parseWarns (record : List Str) : Option (List Str) :=
  (rxnGo ⟨{}, none, []⟩ record).map (·.ws)

end KeggReaction

/-! ## KeggDatabase (src/cobrababel/kegg/KeggDatabase.py) -/

/-- Loop of `KeggDatabase.get_record`: accumulate lines stripped of newlines,
yield the accumulated record when a line starts with `///`. -/
def getRecGo : List Str → List Str → List (List Str)
  | [], _ => []
  | l :: ls, acc =>
    let acc' := acc ++ [stripNl l]
    if l.take 3 = slash3 then acc' :: getRecGo ls [] else getRecGo ls acc'

/-- `KeggDatabase.get_record` over the sequence of lines of the database file:
the list of complete records, in order; trailing lines after the last
terminator are never yielded. -/
def get_record (lines : List Str) : List (List Str) := getRecGo lines []

/-- Modelled from the spec (claim C3 wording): each record is the ordered list
of lines from just after the previous terminator through and including a line
exactly equal to `///`; a trailing partial record is dropped. -/
def specExactGo : List Str → List Str → List (List Str)
  | [], _ => []
  | l :: ls, acc =>
    if l = slash3 then (acc ++ [l]) :: specExactGo ls [] else specExactGo ls (acc ++ [l])

def specSplitExact (lines : List Str) : List (List Str) := specExactGo lines []

/-- Modelled from the spec, amended: a terminator is any line whose first three
characters are `///`. -/
def specTermGo : List Str → List Str → List (List Str)
  | [], _ => []
  | l :: ls, acc =>
    if l.take 3 = slash3 then (acc ++ [l]) :: specTermGo ls [] else specTermGo ls (acc ++ [l])

def specSplitTerm (lines : List Str) : List (List Str) := specTermGo lines []

/-- `DictList.has_id`. -/
def hasId (idf : α → β) [DecidableEq β] (rs : List α) (i : β) : Bool :=
  rs.any (fun x => idf x = i)

/-- `DictList._replace_on_id`: replace the record holding the same id, in
place.  A `DictList` keeps ids unique, so the stored index is the first (and
only) occurrence. -/
def replaceOnId (idf : α → β) [DecidableEq β] (e : α) : List α → List α
  | [] => []
  | x :: xs => if idf x = idf e then e :: xs else x :: replaceOnId idf e xs

/-- `KeggDatabase.update`: replace when the id exists, else append. -/
def dbUpdate (idf : α → β) [DecidableEq β] (rs : List α) (e : α) : List α :=
  if hasId idf rs (idf e) then replaceOnId idf e rs else rs ++ [e]

/-- `DictList.get_by_id` (`None`/KeyError modelled as `none`). -/
def getById (idf : α → β) [DecidableEq β] (rs : List α) (i : β) : Option α :=
  rs.find? (fun x => idf x = i)

/-! ## KeggOrganism (src/cobrababel/kegg/KeggOrganism.py) -/

/-- A KEGG organism record object.  `KeggOrganism.parse` always assigns every
field, so the pre-parse `None` placeholders of `__init__` are not modelled. -/
structure KOrg where
  id : Str
  code : Str
  name : Str
  taxonomy : List Str
  otu_representative : Int
  search_name : Str
deriving DecidableEq

/-- Python `re.sub(r' *\(.*\)$', '', name)`: when the string ends with `)` and
contains an earlier `(`, the leftmost match starts at the spaces preceding the
first `(` and the greedy `.*` extends to the final `)`; the substitution thus
cuts at the first `(` and removes the spaces immediately before it. -/
def subParen (s : Str) : Str :=
  match findSubIdx ['('] s.dropLast with
  | some p => if s.getLast? = some ')' then pyRStrip (fun c => c = ' ') (s.take p) else s
  | none => s

/-- Digit-string to number (used by Python `int(...)`). -/
def digitsToNat (ds : Str) : Option Nat :=
  if ds ≠ [] ∧ ds.all (·.isDigit) then
    some (ds.foldl (fun n c => n * 10 + (c.toNat - '0'.toNat)) 0)
  else none

/-- Python `int(s)` on a decimal string: surrounding whitespace and an optional
sign are accepted; anything else raises, modelled as `none`. -/
def pyInt (s : Str) : Option Int :=
  match pyStrip s with
  | '-' :: ds => (digitsToNat ds).map (fun n => -(n : Int))
  | '+' :: ds => (digitsToNat ds).map (fun n => (n : Int))
  | ds => (digitsToNat ds).map (fun n => (n : Int))

namespace KeggOrganism

/-- `KeggOrganism.parse`: one tab-delimited line; missing fields or a
non-numeric flag raise, modelled as `none`. -/
def parse (record : Str) : Option KOrg :=
  let fields := pySplitSep '\t' record
  match fields[0]?, fields[1]?, fields[2]?, fields[3]?, fields[4]? with
  | some f0, some f1, some f2, some f3, some f4 =>
    (pyInt f4).map (fun ov =>
      { id := f0, code := f1, name := f2, taxonomy := pySplitSep ';' f3,
        otu_representative := ov, search_name := subParen f2 })
  | _, _, _, _, _ => none

end KeggOrganism

/-! ## KeggOrganismDatabase (src/cobrababel/kegg/KeggOrganismDatabase.py) -/

structure OrgDb where
  records : List KOrg
  code_to_id : List (Str × Str)
deriving DecidableEq

namespace KeggOrganismDatabase

/-- The inherited `KeggDatabase.update`: it touches only `records`, never the
`code_to_id` secondary index. -/
def update (db : OrgDb) (o : KOrg) : OrgDb :=
  { db with records := dbUpdate (fun x => x.id) db.records o }

/-- `KeggOrganismDatabase.has_code`: `code in self.code_to_id`. -/
def has_code (db : OrgDb) (c : Str) : Bool :=
  (assocGet db.code_to_id c).isSome

/-- `KeggOrganismDatabase.get_by_code`: `self.records.get_by_id(self.code_to_id[code])`;
a missing code raises KeyError, modelled as `none`. -/
def get_by_code (db : OrgDb) (c : Str) : Option KOrg :=
  (assocGet db.code_to_id c).bind (fun i => getById (fun x => x.id) db.records i)

/-- `KeggOrganismDatabase.download`.  The KEGG web-service response
(`list_kegg_ids('organism')`) is passed in as `organism_list`; each line gets
`'\t0'` appended and is parsed as an organism, then the code index is extended
over all records.  A non-empty database raises `DatabaseError` first. -/
def download (db : OrgDb) (organism_list : List Str) : Except Str OrgDb :=
  if 0 < db.records.length then
    Except.error "Organism database must be empty before downloading from web service".toList
  else
    match organism_list.mapM (fun record => KeggOrganism.parse (record ++ ['\t', '0'])) with
    | none => Except.error "organism record failed to parse".toList
    | some organisms =>
      let recs := db.records ++ organisms
      Except.ok { records := recs,
                  code_to_id := recs.foldl (fun d o => assocSet d o.code o.id) db.code_to_id }

end KeggOrganismDatabase

/-! ## Organism OTU-representative reconciliation
(KeggOrganismDatabase.set_representatives).

The fuzzywuzzy similarity scores (`fuzz.ratio`, `fuzz.partial_ratio`,
`fuzz.token_set_ratio`, integers on a 0-100 scale) are external library
functions and are passed in as parameters `fr`, `fp`, `ft`.  Python object
aliasing between `self.records` and the lookup buckets is modelled by
storing record indices in the buckets. -/

def MATCH_CUTOFF : Nat := 97

/-- One line of the OTU file: when the flag field is `'1'`, normalize the
scientific name by deleting `substr.` and `str.` and map it to the genome id
(`representatives[name] = fields[2]`). -/
def repsFromLine (reps : List (Str × Str)) (line : Str) : Option (List (Str × Str)) :=
  let fields := pySplitSep '\t' (pyStrip line)
  match fields[1]? with
  | none => none
  | some f1 =>
    if f1 = ['1'] then
      match fields[3]?, fields[2]? with
      | some f3, some f2 =>
        let nm := pyReplace (pyReplace f3 "substr.".toList []) "str.".toList []
        some (assocSet reps nm f2)
      | _, _ => none
    else some reps

def repsFromLines (lines : List Str) : Option (List (Str × Str)) :=
  lines.foldlM repsFromLine []

/-- The 2-word (3-word for `Candidatus`) genus+species lookup key; the same
computation is spelled out twice in the source (for database organisms and for
representative names). -/
def lookupKey (nm : Str) : Str :=
  let nw := if "Candidatus".toList.isPrefixOf nm then 3 else 2
  joinSpace ((pySplitWS nm).take nw)

/-- `lookup[name].append(organism)` / `lookup[name] = [organism]`. -/
def assocAppend (l : List (Str × List Nat)) (k : Str) (i : Nat) : List (Str × List Nat) :=
  match l with
  | [] => [(k, [i])]
  | (k', v) :: t => if k' = k then (k', v ++ [i]) :: t else (k', v) :: assocAppend t k i

/-- Bucket prokaryote organisms by lookup key (records indexed from `i`).
`organism.is_prokaryote` reads `taxonomy[0]`, which raises on an empty
taxonomy, modelled as `none`. -/
def buildLookup : List KOrg → Nat → List (Str × List Nat) → Option (List (Str × List Nat))
  | [], _, acc => some acc
  | o :: os, i, acc =>
    match o.taxonomy[0]? with
    | none => none
    | some t0 =>
      if t0 = "Prokaryotes".toList then
        buildLookup os (i + 1) (assocAppend acc (lookupKey o.name) i)
      else
        buildLookup os (i + 1) acc

/-- One candidate match: the record index plus the fields of the Python match
dict (the organism's `search_name` and `name` are cached because they never
change; its representative flag is read from the records at report time). -/
structure MatchRec where
  idx : Nat
  sname : Str
  oname : Str
  rv : Nat
  pv : Nat
  tv : Nat
  possible : Bool
deriving DecidableEq

/-- One row of the report DataFrame, in `otu_report_columns` order. -/
structure ReportRow where
  otuRepName : Str
  otuRepId : Str
  orgName : Str
  orgId : Str
  rv : Nat
  pv : Nat
  tv : Nat
  result : Str
deriving DecidableEq

/-- Set `otu_representative = 1` on the record at position `n`. -/
def setRepAt : List KOrg → Nat → List KOrg
  | [], _ => []
  | o :: os, 0 => { o with otu_representative := 1 } :: os
  | o :: os, n + 1 => o :: setRepAt os n

def mkMatches (fr : Str → Str → Nat) (nm : Str) (orgs : List KOrg) (idxs : List Nat) :
    Option (List MatchRec) :=
  idxs.mapM (fun i => (orgs[i]?).map (fun o =>
    { idx := i, sname := o.search_name, oname := o.name,
      rv := fr nm o.search_name, pv := 0, tv := 0, possible := false }))

/-- `sorted(matches, key=lambda k: k['ratio'], reverse=True)`: stable,
descending. -/
def sortMatches (ms : List MatchRec) : List MatchRec :=
  sortBy (fun a b => decide (b.rv ≤ a.rv)) ms

def markPossible (p : MatchRec → Bool) (ms : List MatchRec) : List MatchRec :=
  ms.map (fun m => if p m then { m with possible := true } else m)

/-- One report row for a candidate; the representative flag is read from the
updated records, matching the Python read of `organism.is_representative`
after the marking step. -/
def mkRow (nm repId : Str) (noneSel : Bool) (nposs : Nat) (orgs : List KOrg) (m : MatchRec) :
    Option ReportRow :=
  (orgs[m.idx]?).map (fun o =>
    let res :=
      if noneSel then "not found".toList
      else if 1 < nposs then
        (if o.otu_representative ≠ 0 then "selected".toList
         else if m.possible then "alternate".toList else "skipped".toList)
      else
        (if o.otu_representative ≠ 0 then "selected".toList else "skipped".toList)
    { otuRepName := nm, otuRepId := repId, orgName := o.name, orgId := o.id,
      rv := m.rv, pv := m.pv, tv := m.tv, result := res })

/-- Processing of one representative (name, id) pair: the body of the
`for name in representatives` loop. -/
def procRep (fr fp ft : Str → Str → Nat) (lookup : List (Str × List Nat))
    (st : List KOrg × List ReportRow) (rep : Str × Str) :
    Option (List KOrg × List ReportRow) :=
  let orgs := st.1
  let rows := st.2
  let key := lookupKey rep.1
  match assocGet lookup key with
  | none =>
    some (orgs, rows ++ [{ otuRepName := rep.1, otuRepId := rep.2,
                           orgName := "no match".toList, orgId := "no match".toList,
                           rv := 0, pv := 0, tv := 0, result := "no match".toList }])
  | some idxs => do
    let ms ← mkMatches fr rep.1 orgs idxs
    let sorted := sortMatches ms
    let m0 ← sorted[0]?
    let maxR := m0.rv
    let ms1 := if MATCH_CUTOFF ≤ maxR then markPossible (fun m => m.rv = maxR) sorted else sorted
    let ms2 :=
      if ms1.filter (·.possible) = [] then
        ms1.map (fun m =>
          let p := fp rep.1 m.sname
          { m with pv := p, possible := decide (MATCH_CUTOFF ≤ p) })
      else ms1
    let ms3 :=
      if ms2.filter (·.possible) = [] then
        ms2.map (fun m =>
          let t := ft rep.1 m.oname
          { m with tv := t, possible := decide (t = 100) })
      else ms2
    let poss := ms3.filter (·.possible)
    let pair ←
      match poss with
      | m :: _ => some (setRepAt orgs m.idx, false)
      | [] =>
        if idxs.length = 1 then (idxs[0]?).map (fun i => (setRepAt orgs i, false))
        else some (orgs, true)
    let newRows ← ms3.mapM (mkRow rep.1 rep.2 pair.2 poss.length pair.1)
    some (pair.1, rows ++ newRows)

namespace KeggOrganismDatabase

/-- `KeggOrganismDatabase.set_representatives`: reset all flags, build the
representative map from the OTU file lines, bucket prokaryotes by lookup key,
then process each representative in insertion order.  The empty-database
`DatabaseError` and the Python errors inside the loop are all modelled as
`none`. -/
def set_representatives (fr fp ft : Str → Str → Nat) (db : OrgDb) (otu_lines : List Str) :
    Option (OrgDb × List ReportRow) :=
  if db.records.length = 0 then none
  else
    let orgs0 := db.records.map (fun o => { o with otu_representative := 0 })
    do
    let reps ← repsFromLines otu_lines
    let lookup ← buildLookup orgs0 0 []
    let final ← reps.foldlM (procRep fr fp ft lookup) (orgs0, [])
    some ({ db with records := final.1 }, final.2)

end KeggOrganismDatabase

/-! ## Lemmas about the Python string primitives -/

/-- A word: non-empty and free of whitespace. -/
def wordOk (w : Str) : Prop := w ≠ [] ∧ ∀ c ∈ w, isWS c = false

instance (w : Str) : Decidable (wordOk w) := by
  unfold wordOk
  infer_instance

lemma dropWhile_eq_self_of_head (p : Char → Bool) (s : Str)
    (h : ∀ c, s.head? = some c → p c = false) : s.dropWhile p = s := by
  cases s with
  | nil => rfl
  | cons c t => simp [List.dropWhile_cons, h c rfl]

lemma head_false_of_dropWhile_eq_self {p : Char → Bool} {s : Str}
    (h : s.dropWhile p = s) {c : Char} (hc : s.head? = some c) : p c = false := by
  cases s with
  | nil => simp at hc
  | cons a t =>
    obtain rfl : a = c := by simpa using hc
    by_contra hp
    rw [Bool.not_eq_false] at hp
    rw [List.dropWhile_cons, if_pos hp] at h
    have h1 := congrArg List.length h
    have h2 := (List.dropWhile_suffix (l := t) p).length_le
    simp only [List.length_cons] at h1
    omega

lemma pyRStrip_eq_self_of_last (p : Char → Bool) (s : Str)
    (h : ∀ c, s.getLast? = some c → p c = false) : pyRStrip p s = s := by
  unfold pyRStrip
  rw [dropWhile_eq_self_of_head p s.reverse (by simpa [List.head?_reverse] using h),
    List.reverse_reverse]

lemma pyStripP_eq_self (p : Char → Bool) (s : Str)
    (h1 : ∀ c, s.head? = some c → p c = false)
    (h2 : ∀ c, s.getLast? = some c → p c = false) : pyStripP p s = s := by
  unfold pyStripP
  rw [pyRStrip_eq_self_of_last p s h2, dropWhile_eq_self_of_head p s h1]

lemma parts_of_pyStripP_eq_self {p : Char → Bool} {s : Str} (h : pyStripP p s = s) :
    s.dropWhile p = s ∧ pyRStrip p s = s := by
  have hr : pyRStrip p s = s := by
    have hsuf : s.reverse.dropWhile p <:+ s.reverse := List.dropWhile_suffix p
    have hlen1 : (pyStripP p s).length = s.length := by rw [h]
    have hlen2 : (pyStripP p s).length ≤ (pyRStrip p s).length := by
      unfold pyStripP
      exact (List.dropWhile_suffix p).length_le
    have hlen3 : (pyRStrip p s).length ≤ s.length := by
      unfold pyRStrip
      rw [List.length_reverse]
      calc (s.reverse.dropWhile p).length ≤ s.reverse.length := hsuf.length_le
        _ = s.length := List.length_reverse s
    have hlen4 : (s.reverse.dropWhile p).length = s.reverse.length := by
      unfold pyRStrip at hlen2 hlen3
      rw [List.length_reverse] at hlen2 hlen3
      rw [List.length_reverse]
      omega
    unfold pyRStrip
    rw [hsuf.eq_of_length hlen4, List.reverse_reverse]
  refine ⟨?_, hr⟩
  unfold pyStripP at h
  rwa [hr] at h

lemma trimmed_head {p : Char → Bool} {s : Str} (h : pyStripP p s = s) {c : Char}
    (hc : s.head? = some c) : p c = false :=
  head_false_of_dropWhile_eq_self (parts_of_pyStripP_eq_self h).1 hc

lemma trimmed_last {p : Char → Bool} {s : Str} (h : pyStripP p s = s) {c : Char}
    (hc : s.getLast? = some c) : p c = false := by
  have hr := (parts_of_pyStripP_eq_self h).2
  unfold pyRStrip at hr
  have hrev : s.reverse.dropWhile p = s.reverse := by
    have := congrArg List.reverse hr
    simpa using this
  exact head_false_of_dropWhile_eq_self hrev (by simpa [List.head?_reverse] using hc)

lemma pyStrip_append_semi {x : Str} (hx : pyStrip x = x) :
    pyStrip (x ++ [';']) = x ++ [';'] := by
  apply pyStripP_eq_self
  · intro c hc
    cases x with
    | nil =>
      obtain rfl : ';' = c := by simpa using hc
      decide
    | cons a t =>
      obtain rfl : a = c := by simpa using hc
      exact trimmed_head hx (by simp)
  · intro c hc
    obtain rfl : ';' = c := by simpa [List.getLast?_concat] using hc
    decide

lemma pyRStrip_append_p {p : Char → Bool} {c : Char} (hc : p c = true) (x : Str) :
    pyRStrip p (x ++ [c]) = pyRStrip p x := by
  unfold pyRStrip
  simp [List.reverse_append, List.dropWhile_cons, hc]

lemma stripSemi_append_semi {x : Str} (hx : stripSemi x = x) :
    stripSemi (x ++ [';']) = x := by
  have hparts := parts_of_pyStripP_eq_self hx
  unfold stripSemi pyStripP
  rw [pyRStrip_append_p (by decide) x, hparts.2, hparts.1]

lemma splitWsGo_word {w : Str} (hw : ∀ c ∈ w, isWS c = false) :
    ∀ (s acc : Str), splitWsGo (w ++ s) acc = splitWsGo s (w.reverse ++ acc) := by
  induction w with
  | nil => intro s acc; simp
  | cons c t ih =>
    intro s acc
    have hc : isWS c = false := hw c (by simp)
    rw [List.cons_append]
    show splitWsGo (c :: (t ++ s)) acc = _
    rw [splitWsGo, hc]
    simp only [Bool.false_eq_true, if_false]
    rw [ih (fun d hd => hw d (by simp [hd])) s (c :: acc)]
    simp

lemma splitWsGo_spaces (k : Nat) : ∀ s : Str, splitWsGo (List.replicate k ' ' ++ s) [] = splitWsGo s [] := by
  induction k with
  | zero => intro s; simp
  | succ n ih =>
    intro s
    rw [List.replicate_succ, List.cons_append]
    show splitWsGo (' ' :: (List.replicate n ' ' ++ s)) [] = _
    rw [splitWsGo]
    simp only [show isWS ' ' = true from rfl, if_true, if_pos rfl]
    exact ih s

lemma splitWsGo_emit {acc : Str} (h : acc ≠ []) (s : Str) :
    splitWsGo (' ' :: s) acc = acc.reverse :: splitWsGo s [] := by
  rw [splitWsGo]
  simp [show isWS ' ' = true from rfl, h]

lemma splitWsGo_final {w : Str} (hw : wordOk w) : splitWsGo w [] = [w] := by
  have h := splitWsGo_word hw.2 [] []
  rw [List.append_nil] at h
  rw [h, splitWsGo]
  simp [hw.1]

lemma pySplitWS_join {gs : List Str} (h : ∀ g ∈ gs, wordOk g) :
    pySplitWS (joinSpace gs) = gs := by
  induction gs with
  | nil => rfl
  | cons g rest ih =>
    cases rest with
    | nil =>
      show splitWsGo (joinSpace [g]) [] = [g]
      exact splitWsGo_final (h g (by simp))
    | cons r rs =>
      have hg := h g (by simp)
      show splitWsGo (joinSpace (g :: r :: rs)) [] = g :: r :: rs
      rw [show joinSpace (g :: r :: rs) = g ++ ' ' :: joinSpace (r :: rs) from rfl]
      rw [splitWsGo_word hg.2, List.append_nil, splitWsGo_emit (by simp [hg.1]), List.reverse_reverse]
      exact congrArg (g :: ·) (ih (fun x hx => h x (by simp [hx])))

/-! ## Stepping lemmas for KeggEnzyme.parse -/

lemma take12_append {tag12 : Str} (h : tag12.length = 12) (y : Str) :
    (tag12 ++ y).take 12 = tag12 := List.take_left' h

lemma drop12_append {tag12 : Str} (h : tag12.length = 12) (y : Str) :
    (tag12 ++ y).drop 12 = y := List.drop_left' h

lemma cont_not_term (y : Str) : (blank12 ++ y).take 3 ≠ slash3 := by
  rw [List.take_append_of_le_length (by decide)]
  decide

lemma field_not_term {tag12 : Str} (hlen : tag12.length = 12) (ht : tag12.take 3 ≠ slash3)
    (y : Str) : (tag12 ++ y).take 3 ≠ slash3 := by
  rw [List.take_append_of_le_length (by omega)]
  exact ht

lemma enzStep_field {tag12 : Str} (hlen : tag12.length = 12) (hnb : tag12 ≠ blank12)
    (hne : pyStrip tag12 ≠ "ENTRY".toList) (e : KEnz) (fn : Option Str) (ws : List Str) (y : Str) :
    enzStep ⟨e, fn, ws⟩ (tag12 ++ y) =
      some ⟨enzApply (pyStrip tag12) (pyStrip y) e, some (pyStrip tag12), ws⟩ := by
  simp only [enzStep, take12_append hlen, drop12_append hlen, if_neg hnb, if_neg hne]

lemma enzStep_cont (e : KEnz) (tg : Str) (ws : List Str) (y : Str)
    (hne : tg ≠ "ENTRY".toList) :
    enzStep ⟨e, some tg, ws⟩ (blank12 ++ y) = some ⟨enzApply tg (pyStrip y) e, some tg, ws⟩ := by
  simp only [enzStep, take12_append (show blank12.length = 12 by decide),
    drop12_append (show blank12.length = 12 by decide), eq_self_iff_true, if_true,
    if_neg hne]

lemma enzStep_entry (e : KEnz) (fn : Option Str) (ws : List Str) (y : Str)
    {w0 pid p2 : Str} {rest : List Str}
    (hparts : pySplitWS (pyStrip y) = w0 :: pid :: p2 :: rest) :
    enzStep ⟨e, fn, ws⟩ ("ENTRY       ".toList ++ y) =
      some ⟨{ e with
                id := some pid,
                obsolete := if p2 = "Obsolete".toList then 1 else e.obsolete },
            some "ENTRY".toList, ws⟩ := by
  simp only [enzStep, take12_append (show ("ENTRY       ".toList : Str).length = 12 by decide),
    drop12_append (show ("ENTRY       ".toList : Str).length = 12 by decide),
    if_neg (show ("ENTRY       ".toList : Str) ≠ blank12 by decide),
    show pyStrip "ENTRY       ".toList = "ENTRY".toList by decide, eq_self_iff_true, if_true,
    hparts, List.getElem?_cons_succ, List.getElem?_cons_zero]

lemma enzGo_append {a : List Str} (h : ∀ l ∈ a, l.take 3 ≠ slash3) (b : List Str) :
    ∀ st, enzGo st (a ++ b) =
      match enzGo st a with
      | none => none
      | some st' => enzGo st' b := by
  induction a with
  | nil => intro st; rfl
  | cons l ls ih =>
    intro st
    rw [List.cons_append]
    have hl := h l (by simp)
    show enzGo st (l :: (ls ++ b)) = _
    rw [enzGo, enzGo, if_neg hl, if_neg hl]
    cases enzStep st l with
    | none => rfl
    | some st1 => exact ih (fun x hx => h x (by simp [hx])) st1

/-- Well-formedness of one value of a semicolon-wrapped multi-value field:
trimmed of surrounding whitespace and of leading/trailing semicolons. -/
def semiOk (x : Str) : Prop := pyStrip x = x ∧ stripSemi x = x

instance (x : Str) : Decidable (semiOk x) := by
  unfold semiOk
  infer_instance

lemma enzGo_semiMid (tagN : Str) (upd : KEnz → Str → KEnz)
    (hne : tagN ≠ "ENTRY".toList)
    (h1 : ∀ e x, semiOk x → enzApply tagN x e = upd e x)
    (h2 : ∀ e x, semiOk x → enzApply tagN (x ++ [';']) e = upd e x) :
    ∀ (xs : List Str) (e : KEnz) (ws : List Str), (∀ x ∈ xs, semiOk x) → xs ≠ [] →
      enzGo ⟨e, some tagN, ws⟩ (KeggEnzyme.semiMid xs) =
        some ⟨xs.foldl upd e, some tagN, ws⟩ := by
  intro xs
  induction xs with
  | nil => intro e ws _ hx; exact absurd rfl hx
  | cons x rest ih =>
    intro e ws hall hx
    have hsx := hall x (by simp)
    cases rest with
    | nil =>
      show enzGo _ [blank12 ++ x] = _
      rw [enzGo, if_neg (cont_not_term x), enzStep_cont e tagN ws x hne, hsx.1, h1 e x hsx]
      rfl
    | cons y rest' =>
      show enzGo _ ((blank12 ++ x ++ [';']) :: KeggEnzyme.semiMid (y :: rest')) = _
      rw [List.append_assoc, enzGo, if_neg (cont_not_term (x ++ [';'])),
        enzStep_cont e tagN ws (x ++ [';']) hne, pyStrip_append_semi hsx.1, h2 e x hsx]
      exact ih (upd e x) ws (fun z hz => hall z (by simp [hz])) (by simp)

lemma enzGo_semiSeg (tagN tag12 : Str) (upd : KEnz → Str → KEnz)
    (hlen : tag12.length = 12) (hnb : tag12 ≠ blank12) (hps : pyStrip tag12 = tagN)
    (hterm : tag12.take 3 ≠ slash3) (hne : tagN ≠ "ENTRY".toList)
    (h1 : ∀ e x, semiOk x → enzApply tagN x e = upd e x)
    (h2 : ∀ e x, semiOk x → enzApply tagN (x ++ [';']) e = upd e x)
    (xs : List Str) (e : KEnz) (fn : Option Str) (ws : List Str)
    (hall : ∀ x ∈ xs, semiOk x) (hxs : xs ≠ []) :
    enzGo ⟨e, fn, ws⟩ (KeggEnzyme.semiSeg tag12 xs) =
      some ⟨xs.foldl upd e, some tagN, ws⟩ := by
  have hne' : pyStrip tag12 ≠ "ENTRY".toList := by rw [hps]; exact hne
  cases xs with
  | nil => exact absurd rfl hxs
  | cons x rest =>
    have hsx := hall x (by simp)
    cases rest with
    | nil =>
      show enzGo _ [tag12 ++ x] = _
      rw [enzGo, if_neg (field_not_term hlen hterm x), enzStep_field hlen hnb hne' e fn ws x,
        hps, hsx.1, h1 e x hsx]
      rfl
    | cons y rest' =>
      show enzGo _ ((tag12 ++ x ++ [';']) :: KeggEnzyme.semiMid (y :: rest')) = _
      rw [List.append_assoc, enzGo, if_neg (field_not_term hlen hterm (x ++ [';'])),
        enzStep_field hlen hnb hne' e fn ws (x ++ [';']), hps, pyStrip_append_semi hsx.1,
        h2 e x hsx]
      exact enzGo_semiMid tagN upd hne h1 h2 (y :: rest') (upd e x) ws
        (fun z hz => hall z (by simp [hz])) (by simp)

lemma semiMid_noTerm (xs : List Str) : ∀ l ∈ KeggEnzyme.semiMid xs, l.take 3 ≠ slash3 := by
  induction xs with
  | nil => intro l hl; simp [KeggEnzyme.semiMid] at hl
  | cons x rest ih =>
    intro l hl
    cases rest with
    | nil =>
      simp only [KeggEnzyme.semiMid, List.mem_singleton] at hl
      subst hl; exact cont_not_term x
    | cons y rest' =>
      rw [show KeggEnzyme.semiMid (x :: y :: rest') =
        (blank12 ++ x ++ [';']) :: KeggEnzyme.semiMid (y :: rest') from rfl] at hl
      rcases List.mem_cons.mp hl with rfl | hl'
      · rw [List.append_assoc]; exact cont_not_term _
      · exact ih l hl'

lemma semiSeg_noTerm {tag12 : Str} (hlen : tag12.length = 12) (hterm : tag12.take 3 ≠ slash3)
    (xs : List Str) : ∀ l ∈ KeggEnzyme.semiSeg tag12 xs, l.take 3 ≠ slash3 := by
  intro l hl
  cases xs with
  | nil => simp [KeggEnzyme.semiSeg] at hl
  | cons x rest =>
    cases rest with
    | nil =>
      simp only [KeggEnzyme.semiSeg, List.mem_singleton] at hl
      subst hl; exact field_not_term hlen hterm x
    | cons y rest' =>
      rw [show KeggEnzyme.semiSeg tag12 (x :: y :: rest') =
        (tag12 ++ x ++ [';']) :: KeggEnzyme.semiMid (y :: rest') from rfl] at hl
      rcases List.mem_cons.mp hl with rfl | hl'
      · rw [List.append_assoc]; exact field_not_term hlen hterm _
      · exact semiMid_noTerm (y :: rest') l hl'

/-! ## Per-field dispatch equations and fold lemmas -/

def concatLists : List (List α) → List α
  | [] => []
  | l :: ls => l ++ concatLists ls

lemma enzApply_NAME (v : Str) (e : KEnz) :
    enzApply "NAME".toList v e = { e with name := e.name ++ [stripSemi v] } := rfl

lemma enzApply_CLASS (v : Str) (e : KEnz) :
    enzApply "CLASS".toList v e = { e with classname := e.classname ++ [stripSemi v] } := rfl

lemma enzApply_SYSNAME (v : Str) (e : KEnz) :
    enzApply "SYSNAME".toList v e = { e with sysname := some v } := rfl

lemma enzApply_REACTION (v : Str) (e : KEnz) :
    enzApply "REACTION".toList v e =
      { e with rxnid := e.rxnid ++ rnIds (stripSemi v),
               reaction := e.reaction ++ [stripSemi v] } := rfl

lemma enzApply_ALL_REAC (v : Str) (e : KEnz) :
    enzApply "ALL_REAC".toList v e = { e with allreactions := e.allreactions ++ [stripSemi v] } := rfl

lemma enzApply_SUBSTRATE (v : Str) (e : KEnz) :
    enzApply "SUBSTRATE".toList v e = { e with substrate := e.substrate ++ [stripSemi v] } := rfl

lemma enzApply_PRODUCT (v : Str) (e : KEnz) :
    enzApply "PRODUCT".toList v e = { e with product := e.product ++ [stripSemi v] } := rfl

lemma enzApply_COMMENT (v : Str) (e : KEnz) :
    enzApply "COMMENT".toList v e = { e with comment := e.comment ++ [v] } := rfl

lemma enzApply_PATHWAY (v : Str) (e : KEnz) :
    enzApply "PATHWAY".toList v e =
      { e with pathway := e.pathway ++ [(v.take 7, pyStrip (v.drop 8))] } := rfl

lemma enzApply_ORTHOLOGY (v : Str) (e : KEnz) :
    enzApply "ORTHOLOGY".toList v e =
      { e with orthology := e.orthology ++ [(v.take 6, pyStrip (v.drop 7))] } := rfl

lemma foldl_name (xs : List Str) : ∀ e : KEnz,
    xs.foldl (fun e x => { e with name := e.name ++ [x] }) e = { e with name := e.name ++ xs } := by
  induction xs with
  | nil => intro e; simp
  | cons x rest ih => intro e; rw [List.foldl_cons, ih]; simp

lemma foldl_classname (xs : List Str) : ∀ e : KEnz,
    xs.foldl (fun e x => { e with classname := e.classname ++ [x] }) e
      = { e with classname := e.classname ++ xs } := by
  induction xs with
  | nil => intro e; simp
  | cons x rest ih => intro e; rw [List.foldl_cons, ih]; simp

lemma foldl_reaction (xs : List Str) : ∀ e : KEnz,
    xs.foldl (fun e x => { e with rxnid := e.rxnid ++ rnIds x, reaction := e.reaction ++ [x] }) e
      = { e with rxnid := e.rxnid ++ concatLists (xs.map rnIds), reaction := e.reaction ++ xs } := by
  induction xs with
  | nil => intro e; simp [concatLists]
  | cons x rest ih => intro e; rw [List.foldl_cons, ih]; simp [concatLists]

lemma foldl_allreactions (xs : List Str) : ∀ e : KEnz,
    xs.foldl (fun e x => { e with allreactions := e.allreactions ++ [x] }) e
      = { e with allreactions := e.allreactions ++ xs } := by
  induction xs with
  | nil => intro e; simp
  | cons x rest ih => intro e; rw [List.foldl_cons, ih]; simp

lemma foldl_substrate (xs : List Str) : ∀ e : KEnz,
    xs.foldl (fun e x => { e with substrate := e.substrate ++ [x] }) e
      = { e with substrate := e.substrate ++ xs } := by
  induction xs with
  | nil => intro e; simp
  | cons x rest ih => intro e; rw [List.foldl_cons, ih]; simp

lemma foldl_product (xs : List Str) : ∀ e : KEnz,
    xs.foldl (fun e x => { e with product := e.product ++ [x] }) e
      = { e with product := e.product ++ xs } := by
  induction xs with
  | nil => intro e; simp
  | cons x rest ih => intro e; rw [List.foldl_cons, ih]; simp

lemma foldl_comment (xs : List Str) : ∀ e : KEnz,
    xs.foldl (fun e x => { e with comment := e.comment ++ [x] }) e
      = { e with comment := e.comment ++ xs } := by
  induction xs with
  | nil => intro e; simp
  | cons x rest ih => intro e; rw [List.foldl_cons, ih]; simp

lemma foldl_pathway (xs : List (Str × Str)) : ∀ e : KEnz,
    xs.foldl (fun e p => { e with pathway := e.pathway ++ [p] }) e
      = { e with pathway := e.pathway ++ xs } := by
  induction xs with
  | nil => intro e; simp
  | cons x rest ih => intro e; rw [List.foldl_cons, ih]; simp

lemma foldl_orthology (xs : List (Str × Str)) : ∀ e : KEnz,
    xs.foldl (fun e p => { e with orthology := e.orthology ++ [p] }) e
      = { e with orthology := e.orthology ++ xs } := by
  induction xs with
  | nil => intro e; simp
  | cons x rest ih => intro e; rw [List.foldl_cons, ih]; simp

lemma foldl_genes (xs : List (Str × List Str)) : ∀ e : KEnz,
    xs.foldl (fun e g => { e with genes := assocSet e.genes g.1 g.2 }) e
      = { e with genes := xs.foldl (fun d g => assocSet d g.1 g.2) e.genes } := by
  induction xs with
  | nil => intro e; simp
  | cons x rest ih => intro e; rw [List.foldl_cons, ih]; rfl


/-! ## Segment evaluation lemmas -/

lemma enzGo_name_seg (xs : List Str) (e : KEnz) (fn : Option Str) (ws : List Str)
    (hall : ∀ x ∈ xs, semiOk x) (hxs : xs ≠ []) :
    enzGo ⟨e, fn, ws⟩ (KeggEnzyme.semiSeg "NAME        ".toList xs) =
      some ⟨{ e with name := e.name ++ xs }, some "NAME".toList, ws⟩ := by
  rw [enzGo_semiSeg "NAME".toList "NAME        ".toList
      (fun e x => { e with name := e.name ++ [x] })
      (by decide) (by decide) (by decide) (by decide) (by decide)
      (fun e x hx => by rw [enzApply_NAME, hx.2])
      (fun e x hx => by rw [enzApply_NAME, stripSemi_append_semi hx.2])
      xs e fn ws hall hxs, foldl_name]

lemma enzGo_class_seg (xs : List Str) (e : KEnz) (fn : Option Str) (ws : List Str)
    (hall : ∀ x ∈ xs, semiOk x) (hxs : xs ≠ []) :
    enzGo ⟨e, fn, ws⟩ (KeggEnzyme.semiSeg "CLASS       ".toList xs) =
      some ⟨{ e with classname := e.classname ++ xs }, some "CLASS".toList, ws⟩ := by
  rw [enzGo_semiSeg "CLASS".toList "CLASS       ".toList
      (fun e x => { e with classname := e.classname ++ [x] })
      (by decide) (by decide) (by decide) (by decide) (by decide)
      (fun e x hx => by rw [enzApply_CLASS, hx.2])
      (fun e x hx => by rw [enzApply_CLASS, stripSemi_append_semi hx.2])
      xs e fn ws hall hxs, foldl_classname]

lemma enzGo_reaction_seg (xs : List Str) (e : KEnz) (fn : Option Str) (ws : List Str)
    (hall : ∀ x ∈ xs, semiOk x) (hxs : xs ≠ []) :
    enzGo ⟨e, fn, ws⟩ (KeggEnzyme.semiSeg "REACTION    ".toList xs) =
      some ⟨{ e with rxnid := e.rxnid ++ concatLists (xs.map rnIds),
                     reaction := e.reaction ++ xs }, some "REACTION".toList, ws⟩ := by
  rw [enzGo_semiSeg "REACTION".toList "REACTION    ".toList
      (fun e x => { e with rxnid := e.rxnid ++ rnIds x, reaction := e.reaction ++ [x] })
      (by decide) (by decide) (by decide) (by decide) (by decide)
      (fun e x hx => by rw [enzApply_REACTION, hx.2])
      (fun e x hx => by rw [enzApply_REACTION, stripSemi_append_semi hx.2])
      xs e fn ws hall hxs, foldl_reaction]

lemma enzGo_allreac_seg (xs : List Str) (e : KEnz) (fn : Option Str) (ws : List Str)
    (hall : ∀ x ∈ xs, semiOk x) (hxs : xs ≠ []) :
    enzGo ⟨e, fn, ws⟩ (KeggEnzyme.semiSeg "ALL_REAC    ".toList xs) =
      some ⟨{ e with allreactions := e.allreactions ++ xs }, some "ALL_REAC".toList, ws⟩ := by
  rw [enzGo_semiSeg "ALL_REAC".toList "ALL_REAC    ".toList
      (fun e x => { e with allreactions := e.allreactions ++ [x] })
      (by decide) (by decide) (by decide) (by decide) (by decide)
      (fun e x hx => by rw [enzApply_ALL_REAC, hx.2])
      (fun e x hx => by rw [enzApply_ALL_REAC, stripSemi_append_semi hx.2])
      xs e fn ws hall hxs, foldl_allreactions]

lemma enzGo_substrate_seg (xs : List Str) (e : KEnz) (fn : Option Str) (ws : List Str)
    (hall : ∀ x ∈ xs, semiOk x) (hxs : xs ≠ []) :
    enzGo ⟨e, fn, ws⟩ (KeggEnzyme.semiSeg "SUBSTRATE   ".toList xs) =
      some ⟨{ e with substrate := e.substrate ++ xs }, some "SUBSTRATE".toList, ws⟩ := by
  rw [enzGo_semiSeg "SUBSTRATE".toList "SUBSTRATE   ".toList
      (fun e x => { e with substrate := e.substrate ++ [x] })
      (by decide) (by decide) (by decide) (by decide) (by decide)
      (fun e x hx => by rw [enzApply_SUBSTRATE, hx.2])
      (fun e x hx => by rw [enzApply_SUBSTRATE, stripSemi_append_semi hx.2])
      xs e fn ws hall hxs, foldl_substrate]

lemma enzGo_product_seg (xs : List Str) (e : KEnz) (fn : Option Str) (ws : List Str)
    (hall : ∀ x ∈ xs, semiOk x) (hxs : xs ≠ []) :
    enzGo ⟨e, fn, ws⟩ (KeggEnzyme.semiSeg "PRODUCT     ".toList xs) =
      some ⟨{ e with product := e.product ++ xs }, some "PRODUCT".toList, ws⟩ := by
  rw [enzGo_semiSeg "PRODUCT".toList "PRODUCT     ".toList
      (fun e x => { e with product := e.product ++ [x] })
      (by decide) (by decide) (by decide) (by decide) (by decide)
      (fun e x hx => by rw [enzApply_PRODUCT, hx.2])
      (fun e x hx => by rw [enzApply_PRODUCT, stripSemi_append_semi hx.2])
      xs e fn ws hall hxs, foldl_product]

lemma enzGo_sysname (s : Str) (hs : pyStrip s = s) (e : KEnz) (fn : Option Str) (ws : List Str) :
    enzGo ⟨e, fn, ws⟩ ["SYSNAME     ".toList ++ s] =
      some ⟨{ e with sysname := some s }, some "SYSNAME".toList, ws⟩ := by
  rw [enzGo, if_neg (field_not_term (by decide) (by decide) s),
    enzStep_field (by decide) (by decide) (by decide) e fn ws s,
    show pyStrip "SYSNAME     ".toList = "SYSNAME".toList by decide, hs, enzApply_SYSNAME]
  rfl

lemma enzGo_mapCont {γ : Type} (tagN : Str) (upd : KEnz → γ → KEnz) (fmt : γ → Str)
    (P : γ → Prop) (hne : tagN ≠ "ENTRY".toList)
    (happ : ∀ e x, P x → enzApply tagN (pyStrip (fmt x)) e = upd e x) :
    ∀ (xs : List γ) (e : KEnz) (ws : List Str), (∀ x ∈ xs, P x) →
      enzGo ⟨e, some tagN, ws⟩ (xs.map (fun x => blank12 ++ fmt x)) =
        some ⟨xs.foldl upd e, some tagN, ws⟩ := by
  intro xs
  induction xs with
  | nil => intro e ws _; rfl
  | cons x rest ih =>
    intro e ws hall
    rw [List.map_cons, enzGo, if_neg (cont_not_term _), enzStep_cont e tagN ws _ hne,
      happ e x (hall x (by simp))]
    exact ih (upd e x) ws (fun z hz => hall z (by simp [hz]))

lemma enzGo_comment_seg (xs : List Str) (e : KEnz) (fn : Option Str) (ws : List Str)
    (hall : ∀ x ∈ xs, pyStrip x = x) (hxs : xs ≠ []) :
    enzGo ⟨e, fn, ws⟩ (KeggEnzyme.commentSeg xs) =
      some ⟨{ e with comment := e.comment ++ xs }, some "COMMENT".toList, ws⟩ := by
  cases xs with
  | nil => exact absurd rfl hxs
  | cons x rest =>
    show enzGo _ (("COMMENT     ".toList ++ x) :: rest.map (fun y => blank12 ++ y)) = _
    rw [enzGo, if_neg (field_not_term (by decide) (by decide) x),
      enzStep_field (by decide) (by decide) (by decide) e fn ws x,
      show pyStrip "COMMENT     ".toList = "COMMENT".toList by decide,
      hall x (by simp), enzApply_COMMENT]
    show enzGo ⟨{ e with comment := e.comment ++ [x] }, some "COMMENT".toList, ws⟩
        (rest.map (fun y => blank12 ++ y)) = _
    rw [enzGo_mapCont "COMMENT".toList (fun e x => { e with comment := e.comment ++ [x] })
      (fun z : Str => z) (fun x => pyStrip x = x) (by decide)
      (fun e x hx => by
        rw [show pyStrip ((fun z : Str => z) x) = x from hx, enzApply_COMMENT])
      rest _ ws (fun z hz => hall z (by simp [hz])), foldl_comment]
    simp

/-! ## Pathway / orthology segments -/

/-- Well-formedness of an (id, description) pair written with the fixed-column
sub-split: the id has exactly `n` characters and both parts are trimmed. -/
def pairOk (n : Nat) (p : Str × Str) : Prop :=
  p.1.length = n ∧ pyStrip p.1 = p.1 ∧ pyStrip p.2 = p.2

instance (n : Nat) (p : Str × Str) : Decidable (pairOk n p) := by
  unfold pairOk
  infer_instance

lemma dropWhile_replicate_true {p : Char → Bool} {c : Char} (hc : p c = true) (k : Nat) :
    ∀ l : Str, (List.replicate k c ++ l).dropWhile p = l.dropWhile p := by
  induction k with
  | zero => intro l; simp
  | succ n ih =>
    intro l
    rw [List.replicate_succ, List.cons_append, List.dropWhile_cons, if_pos hc]
    exact ih l

lemma pyStrip_append_spaces {x : Str} (hx : pyStrip x = x) (k : Nat) :
    pyStrip (x ++ List.replicate k ' ') = x := by
  have hp := parts_of_pyStripP_eq_self hx
  have hrev : x.reverse.dropWhile isWS = x.reverse := by
    have h2 := hp.2
    unfold pyRStrip at h2
    have := congrArg List.reverse h2
    simpa using this
  show pyStripP isWS (x ++ List.replicate k ' ') = x
  unfold pyStripP pyRStrip
  rw [List.reverse_append, List.reverse_replicate,
    dropWhile_replicate_true (show isWS ' ' = true by decide), hrev, List.reverse_reverse]
  exact hp.1

lemma pyStrip_cons_space {x : Str} (hx : pyStrip x = x) : pyStrip (' ' :: x) = x := by
  cases x with
  | nil => decide
  | cons c t =>
    have hp := parts_of_pyStripP_eq_self hx
    show pyStripP isWS (' ' :: c :: t) = c :: t
    unfold pyStripP
    have hr : pyRStrip isWS (' ' :: c :: t) = ' ' :: c :: t := by
      apply pyRStrip_eq_self_of_last
      intro d hd
      exact trimmed_last hx (by rwa [List.getLast?_cons_cons] at hd)
    rw [hr, List.dropWhile_cons, if_pos (show isWS ' ' = true by decide)]
    exact hp.1

lemma pair_value (m : Nat) (hm : 0 < m) (p : Str × Str) (hlen : p.1.length = m)
    (h1 : pyStrip p.1 = p.1) (h2 : pyStrip p.2 = p.2) :
    (pyStrip (KeggEnzyme.fmtPair2 p)).take m = p.1
    ∧ pyStrip ((pyStrip (KeggEnzyme.fmtPair2 p)).drop (m + 1)) = p.2 := by
  have hne1 : p.1 ≠ [] := by
    intro h
    rw [h] at hlen
    simp at hlen
    omega
  by_cases hp2 : p.2 = []
  · have hfmt : KeggEnzyme.fmtPair2 p = p.1 ++ List.replicate 2 ' ' := by
      unfold KeggEnzyme.fmtPair2
      rw [hp2, List.append_nil]
      rfl
    rw [hfmt, pyStrip_append_spaces h1 2]
    refine ⟨List.take_of_length_le (by omega), ?_⟩
    rw [List.drop_eq_nil_of_le (by omega), hp2]
    rfl
  · have hfmt : KeggEnzyme.fmtPair2 p = p.1 ++ ([' ', ' '] ++ p.2) := by
      unfold KeggEnzyme.fmtPair2
      rw [List.append_assoc]
      rfl
    have hval : pyStrip (KeggEnzyme.fmtPair2 p) = p.1 ++ ([' ', ' '] ++ p.2) := by
      rw [hfmt]
      apply pyStripP_eq_self
      · intro d hd
        rw [List.head?_append_of_ne_nil _ hne1] at hd
        exact trimmed_head h1 hd
      · intro d hd
        rw [List.getLast?_append_of_ne_nil _ (by simp [hp2]),
          List.getLast?_append_of_ne_nil _ hp2] at hd
        exact trimmed_last h2 hd
    rw [hval]
    constructor
    · rw [← hlen]
      exact List.take_left p.1 _
    · rw [← hlen, List.drop_append 1]
      show pyStrip (' ' :: p.2) = p.2
      exact pyStrip_cons_space h2

lemma pathwayApply (p : Str × Str) (hp : pairOk 7 p) (e : KEnz) :
    enzApply "PATHWAY".toList (pyStrip (KeggEnzyme.fmtPair2 p)) e =
      { e with pathway := e.pathway ++ [p] } := by
  obtain ⟨hv1, hv2⟩ := pair_value 7 (by omega) p hp.1 hp.2.1 hp.2.2
  rw [enzApply_PATHWAY, show (8 : Nat) = 7 + 1 from rfl, hv1, hv2]

lemma orthologyApply (p : Str × Str) (hp : pairOk 6 p) (e : KEnz) :
    enzApply "ORTHOLOGY".toList (pyStrip (KeggEnzyme.fmtPair2 p)) e =
      { e with orthology := e.orthology ++ [p] } := by
  obtain ⟨hv1, hv2⟩ := pair_value 6 (by omega) p hp.1 hp.2.1 hp.2.2
  rw [enzApply_ORTHOLOGY, show (7 : Nat) = 6 + 1 from rfl, hv1, hv2]

lemma enzGo_pathway_seg (ps : List (Str × Str)) (e : KEnz) (fn : Option Str) (ws : List Str)
    (hall : ∀ p ∈ ps, pairOk 7 p) (hps : ps ≠ []) :
    enzGo ⟨e, fn, ws⟩ (KeggEnzyme.pairSeg "PATHWAY     ".toList ps) =
      some ⟨{ e with pathway := e.pathway ++ ps }, some "PATHWAY".toList, ws⟩ := by
  cases ps with
  | nil => exact absurd rfl hps
  | cons p rest =>
    show enzGo _ (("PATHWAY     ".toList ++ KeggEnzyme.fmtPair2 p)
        :: rest.map (fun q => blank12 ++ KeggEnzyme.fmtPair2 q)) = _
    rw [enzGo, if_neg (field_not_term (by decide) (by decide) _),
      enzStep_field (by decide) (by decide) (by decide) e fn ws _,
      show pyStrip "PATHWAY     ".toList = "PATHWAY".toList by decide,
      pathwayApply p (hall p (by simp)) e]
    show enzGo ⟨{ e with pathway := e.pathway ++ [p] }, some "PATHWAY".toList, ws⟩
        (rest.map (fun q => blank12 ++ KeggEnzyme.fmtPair2 q)) = _
    rw [enzGo_mapCont "PATHWAY".toList (fun e p => { e with pathway := e.pathway ++ [p] })
      KeggEnzyme.fmtPair2 (pairOk 7) (by decide)
      (fun e q hq => pathwayApply q hq e)
      rest _ ws (fun z hz => hall z (by simp [hz])), foldl_pathway]
    simp

lemma enzGo_orthology_seg (ps : List (Str × Str)) (e : KEnz) (fn : Option Str) (ws : List Str)
    (hall : ∀ p ∈ ps, pairOk 6 p) (hps : ps ≠ []) :
    enzGo ⟨e, fn, ws⟩ (KeggEnzyme.pairSeg "ORTHOLOGY   ".toList ps) =
      some ⟨{ e with orthology := e.orthology ++ ps }, some "ORTHOLOGY".toList, ws⟩ := by
  cases ps with
  | nil => exact absurd rfl hps
  | cons p rest =>
    show enzGo _ (("ORTHOLOGY   ".toList ++ KeggEnzyme.fmtPair2 p)
        :: rest.map (fun q => blank12 ++ KeggEnzyme.fmtPair2 q)) = _
    rw [enzGo, if_neg (field_not_term (by decide) (by decide) _),
      enzStep_field (by decide) (by decide) (by decide) e fn ws _,
      show pyStrip "ORTHOLOGY   ".toList = "ORTHOLOGY".toList by decide,
      orthologyApply p (hall p (by simp)) e]
    show enzGo ⟨{ e with orthology := e.orthology ++ [p] }, some "ORTHOLOGY".toList, ws⟩
        (rest.map (fun q => blank12 ++ KeggEnzyme.fmtPair2 q)) = _
    rw [enzGo_mapCont "ORTHOLOGY".toList (fun e p => { e with orthology := e.orthology ++ [p] })
      KeggEnzyme.fmtPair2 (pairOk 6) (by decide)
      (fun e q hq => orthologyApply q hq e)
      rest _ ws (fun z hz => hall z (by simp [hz])), foldl_orthology]
    simp

/-! ## GENES segment -/

/-- Well-formedness of one genes entry: the organism code is a non-empty
whitespace-free lower-case string without a colon; every gene id is a word. -/
def geneOk (g : Str × List Str) : Prop :=
  wordOk g.1 ∧ (':' ∉ g.1) ∧ pyLower g.1 = g.1 ∧ ∀ w ∈ g.2, wordOk w

instance (g : Str × List Str) : Decidable (geneOk g) := by
  unfold geneOk
  infer_instance

lemma findSubIdx_colon {k : Str} (hk : ':' ∉ k) (r : Str) :
    findSubIdx [':'] (k ++ ':' :: r) = some k.length := by
  induction k with
  | nil =>
    show findSubIdx [':'] (':' :: r) = some 0
    rw [findSubIdx, if_pos (by simp [List.isPrefixOf])]
  | cons c t ih =>
    have hc : c ≠ ':' := fun h => hk (by simp [h])
    rw [List.cons_append, findSubIdx,
      if_neg (by
        simp [List.isPrefixOf]
        exact fun h => absurd h (by simpa using fun hh => hc hh.symm)),
      ih (fun h => hk (by simp [h]))]
    simp

lemma word_head {w : Str} (hw : wordOk w) {c : Char} (hc : w.head? = some c) :
    isWS c = false :=
  hw.2 c (List.mem_of_mem_head? hc)

lemma word_last {w : Str} (hw : wordOk w) {c : Char} (hc : w.getLast? = some c) :
    isWS c = false :=
  hw.2 c (List.mem_of_mem_getLast? hc)

lemma joinSpace_ne_nil {gs : List Str} (h : ∀ w ∈ gs, wordOk w) (hne : gs ≠ []) :
    joinSpace gs ≠ [] := by
  cases gs with
  | nil => exact absurd rfl hne
  | cons g rest =>
    cases rest with
    | nil => exact (h g (by simp)).1
    | cons r rs =>
      show g ++ ' ' :: joinSep ' ' (r :: rs) ≠ []
      simp

lemma joinSpace_last {gs : List Str} (h : ∀ w ∈ gs, wordOk w) :
    ∀ c, (joinSpace gs).getLast? = some c → isWS c = false := by
  induction gs with
  | nil => intro c hc; simp [joinSpace, joinSep] at hc
  | cons g rest ih =>
    intro c hc
    cases rest with
    | nil => exact word_last (h g (by simp)) hc
    | cons r rs =>
      have hrest : ∀ w ∈ r :: rs, wordOk w := fun w hw => h w (List.mem_cons_of_mem g hw)
      have hjn : joinSpace (r :: rs) ≠ [] := joinSpace_ne_nil hrest (by simp)
      rw [show joinSpace (g :: r :: rs) = g ++ ([' '] ++ joinSpace (r :: rs)) from rfl,
        List.getLast?_append_of_ne_nil g (by simp [hjn]),
        List.getLast?_append_of_ne_nil [' '] hjn] at hc
      exact ih hrest c hc

lemma enzApply_GENES_found (value : Str) (pos : Nat) (e : KEnz)
    (hfind : findSubIdx [':'] value = some pos) :
    enzApply "GENES".toList value e =
      { e with genes := assocSet e.genes (pyLower (value.take pos))
                          (pySplitWS (value.drop (pos + 2))) } := by
  rw [enzApply, if_neg (by decide), if_neg (by decide), if_neg (by decide),
    if_neg (by decide), if_neg (by decide), if_neg (by decide), if_neg (by decide),
    if_neg (by decide), if_neg (by decide), if_neg (by decide), if_pos rfl, hfind]

lemma geneApply (g : Str × List Str) (hg : geneOk g) (e : KEnz) :
    enzApply "GENES".toList (pyStrip (KeggEnzyme.fmtGene g)) e =
      { e with genes := assocSet e.genes g.1 g.2 } := by
  obtain ⟨hw, hcol, hlow, hws⟩ := hg
  have hk1 : pyStrip (g.1 ++ [':']) = g.1 ++ [':'] := by
    apply pyStripP_eq_self
    · intro d hd
      rw [List.head?_append_of_ne_nil _ hw.1] at hd
      exact word_head hw hd
    · intro d hd
      rw [List.getLast?_concat] at hd
      obtain rfl : ':' = d := by simpa using hd
      decide
  by_cases hg2 : g.2 = []
  · have hfmt : KeggEnzyme.fmtGene g = (g.1 ++ [':']) ++ List.replicate 1 ' ' := by
      unfold KeggEnzyme.fmtGene
      rw [hg2, show joinSpace ([] : List Str) = [] from rfl, List.append_nil,
        List.append_assoc]
      rfl
    have hval : pyStrip (KeggEnzyme.fmtGene g) = g.1 ++ ':' :: [] := by
      rw [hfmt, pyStrip_append_spaces hk1 1]
    rw [hval, enzApply_GENES_found _ _ _ (findSubIdx_colon hcol []),
      show g.1 ++ ':' :: [] = g.1 ++ [':'] from rfl, List.take_left g.1, hlow,
      List.drop_eq_nil_of_le (by simp), hg2]
    rfl
  · have hfmt : KeggEnzyme.fmtGene g = g.1 ++ ':' :: ' ' :: joinSpace g.2 := by
      unfold KeggEnzyme.fmtGene
      rw [List.append_assoc]
      rfl
    have hval : pyStrip (KeggEnzyme.fmtGene g) = g.1 ++ ':' :: ' ' :: joinSpace g.2 := by
      rw [hfmt]
      apply pyStripP_eq_self
      · intro d hd
        rw [List.head?_append_of_ne_nil _ hw.1] at hd
        exact word_head hw hd
      · intro d hd
        have hjn : joinSpace g.2 ≠ [] := joinSpace_ne_nil hws hg2
        rw [show g.1 ++ ':' :: ' ' :: joinSpace g.2 = g.1 ++ ([':', ' '] ++ joinSpace g.2)
            by rfl,
          List.getLast?_append_of_ne_nil g.1 (by simp [hjn]),
          List.getLast?_append_of_ne_nil [':', ' '] hjn] at hd
        exact joinSpace_last hws d hd
    rw [hval, enzApply_GENES_found _ _ _ (findSubIdx_colon hcol (' ' :: joinSpace g.2)),
      show g.1 ++ ':' :: ' ' :: joinSpace g.2 = g.1 ++ (':' :: ' ' :: joinSpace g.2) from rfl,
      List.take_left g.1, hlow,
      show g.1.length + 2 = g.1.length + 2 + 0 from rfl,
      show g.1 ++ (':' :: ' ' :: joinSpace g.2) = (g.1 ++ [':', ' ']) ++ joinSpace g.2 by
        simp,
      show g.1.length + 2 + 0 = (g.1 ++ [':', ' ']).length + 0 by simp,
      List.drop_append 0, List.drop_zero, pySplitWS_join hws]

lemma sortBy_eq_self {le : α → α → Bool} {l : List α}
    (h : l.Pairwise (fun a b => le a b = true)) : sortBy le l = l := by
  induction l with
  | nil => rfl
  | cons x xs ih =>
    rw [sortBy, ih (List.Pairwise.sublist (List.sublist_cons_self x xs) h)]
    cases xs with
    | nil => rfl
    | cons y ys =>
      rw [insBy, if_pos (List.rel_of_pairwise_cons h (by simp))]

lemma assocSet_fresh {α : Type} {l : List (Str × α)} {k : Str} {v : α}
    (h : ∀ q ∈ l, q.1 ≠ k) : assocSet l k v = l ++ [(k, v)] := by
  induction l with
  | nil => rfl
  | cons q t ih =>
    rw [assocSet, if_neg (h q (by simp)), ih (fun z hz => h z (by simp [hz]))]
    rfl

lemma foldl_assocSet_fresh :
    ∀ (gl : List (Str × List Str)) (acc : List (Str × List Str)),
      (∀ g ∈ gl, ∀ q ∈ acc, q.1 ≠ g.1) → gl.Pairwise (fun a b => a.1 ≠ b.1) →
      gl.foldl (fun d g => assocSet d g.1 g.2) acc = acc ++ gl := by
  intro gl
  induction gl with
  | nil => intro acc _ _; simp
  | cons g rest ih =>
    intro acc hfresh hpw
    rw [List.foldl_cons, assocSet_fresh (fun q hq => hfresh g (by simp) q hq),
      ih (acc ++ [g]) ?hf (List.Pairwise.sublist (List.sublist_cons_self g rest) hpw)]
    · simp
    case hf =>
      intro g' hg' q hq
      rcases List.mem_append.mp hq with hq1 | hq2
      · exact hfresh g' (by simp [hg']) q hq1
      · obtain rfl : q = g := by simpa using hq2
        exact List.rel_of_pairwise_cons hpw hg'

lemma enzGo_genes_seg (gl : List (Str × List Str)) (e : KEnz) (fn : Option Str) (ws : List Str)
    (hall : ∀ g ∈ gl, geneOk g)
    (hsorted : gl.Pairwise (fun a b => strLe a.1 b.1 = true ∧ a.1 ≠ b.1))
    (hgl : gl ≠ []) :
    enzGo ⟨e, fn, ws⟩ (KeggEnzyme.genesSeg gl) =
      some ⟨{ e with genes := gl.foldl (fun d g => assocSet d g.1 g.2) e.genes },
            some "GENES".toList, ws⟩ := by
  have hsort : sortBy (fun a b => strLe a.1 b.1) gl = gl :=
    sortBy_eq_self (hsorted.imp (fun h => h.1))
  unfold KeggEnzyme.genesSeg
  rw [hsort]
  cases gl with
  | nil => exact absurd rfl hgl
  | cons g rest =>
    rw [enzGo, if_neg (field_not_term (by decide) (by decide) _),
      enzStep_field (by decide) (by decide) (by decide) e fn ws _,
      show pyStrip "GENES       ".toList = "GENES".toList by decide,
      geneApply g (hall g (by simp)) e]
    show enzGo ⟨{ e with genes := assocSet e.genes g.1 g.2 }, some "GENES".toList, ws⟩
        (rest.map (fun h => blank12 ++ KeggEnzyme.fmtGene h)) = _
    rw [enzGo_mapCont "GENES".toList
      (fun e g => { e with genes := assocSet e.genes g.1 g.2 })
      KeggEnzyme.fmtGene geneOk (by decide)
      (fun e q hq => geneApply q hq e)
      rest _ ws (fun z hz => hall z (by simp [hz])), foldl_genes]
    rfl

lemma genesSeg_noTerm (gl : List (Str × List Str)) :
    ∀ l ∈ KeggEnzyme.genesSeg gl, l.take 3 ≠ slash3 := by
  unfold KeggEnzyme.genesSeg
  cases hs : sortBy (fun a b => strLe a.1 b.1) gl with
  | nil => intro l hl; simp at hl
  | cons g rest =>
    intro l hl
    rcases List.mem_cons.mp hl with rfl | hl'
    · exact field_not_term (by decide) (by decide) _
    · obtain ⟨q, _, rfl⟩ := List.mem_map.mp hl'
      exact cont_not_term _

lemma pairSeg_noTerm {tag12 : Str} (hlen : tag12.length = 12) (hterm : tag12.take 3 ≠ slash3)
    (ps : List (Str × Str)) : ∀ l ∈ KeggEnzyme.pairSeg tag12 ps, l.take 3 ≠ slash3 := by
  cases ps with
  | nil => intro l hl; simp [KeggEnzyme.pairSeg] at hl
  | cons p rest =>
    intro l hl
    rcases List.mem_cons.mp hl with rfl | hl'
    · exact field_not_term hlen hterm _
    · obtain ⟨q, _, rfl⟩ := List.mem_map.mp hl'
      exact cont_not_term _

lemma commentSeg_noTerm (xs : List Str) :
    ∀ l ∈ KeggEnzyme.commentSeg xs, l.take 3 ≠ slash3 := by
  cases xs with
  | nil => intro l hl; simp [KeggEnzyme.commentSeg] at hl
  | cons x rest =>
    intro l hl
    rcases List.mem_cons.mp hl with rfl | hl'
    · exact field_not_term (by decide) (by decide) _
    · obtain ⟨q, _, rfl⟩ := List.mem_map.mp hl'
      exact cont_not_term _

/-! ## ENTRY line -/

lemma split_entry_value (i : Str) (hi : wordOk i) (pad : Nat) (hpad : 1 ≤ pad) (sfx : Str) :
    pySplitWS ("EC ".toList ++ (i ++ (List.replicate pad ' ' ++ sfx))) =
      "EC".toList :: i :: splitWsGo sfx [] := by
  show splitWsGo _ [] = _
  rw [show ("EC ".toList ++ (i ++ (List.replicate pad ' ' ++ sfx))) =
      "EC".toList ++ (' ' :: (i ++ (List.replicate pad ' ' ++ sfx))) by rfl]
  rw [splitWsGo_word (by decide), List.append_nil, splitWsGo_emit (by decide)]
  rw [splitWsGo_word hi.2, List.append_nil]
  obtain ⟨p, rfl⟩ : ∃ p, pad = p + 1 := ⟨pad - 1, by omega⟩
  rw [List.replicate_succ, List.cons_append, splitWsGo_emit (by simp [hi.1]),
    splitWsGo_spaces p sfx]
  simp

lemma pyStrip_entry_value (i : Str) (pad : Nat) (sfx : Str) (hsfx : sfx ≠ [])
    (hlast : ∀ c, sfx.getLast? = some c → isWS c = false) :
    pyStrip ("EC ".toList ++ (i ++ (List.replicate pad ' ' ++ sfx))) =
      "EC ".toList ++ (i ++ (List.replicate pad ' ' ++ sfx)) := by
  apply pyStripP_eq_self
  · intro c hc
    obtain rfl : 'E' = c := by simpa using hc
    decide
  · intro c hc
    rw [List.getLast?_append_of_ne_nil _ (by simp [hsfx]),
      List.getLast?_append_of_ne_nil _ (by simp [hsfx]),
      List.getLast?_append_of_ne_nil _ hsfx] at hc
    exact hlast c hc

lemma entry_head_len (i : Str) :
    ("ENTRY       EC ".toList ++ i).length = 15 + i.length := by
  rw [List.length_append, show ("ENTRY       EC ".toList : Str).length = 15 by decide]

lemma entryLine_shape_obs (e : KEnz) (i : Str) (hid : e.id = some i) (hob : e.obsolete ≠ 0) :
    KeggEnzyme.entryLine e = "ENTRY       ".toList ++
      ("EC ".toList ++ (i ++ (List.replicate (30 - (15 + i.length)) ' '
        ++ "Obsolete  Enzyme".toList))) := by
  unfold KeggEnzyme.entryLine
  rw [hid, if_pos hob]
  show ("ENTRY       EC ".toList ++ i)
      ++ List.replicate (30 - ("ENTRY       EC ".toList ++ i).length) ' '
      ++ "Obsolete  Enzyme".toList = _
  rw [entry_head_len i]
  simp [List.append_assoc]

lemma entryLine_shape_act (e : KEnz) (i : Str) (hid : e.id = some i) (hob : e.obsolete = 0) :
    KeggEnzyme.entryLine e = "ENTRY       ".toList ++
      ("EC ".toList ++ (i ++ (List.replicate (40 - (15 + i.length)) ' '
        ++ "Enzyme".toList))) := by
  unfold KeggEnzyme.entryLine
  rw [hid, if_neg (by simp [hob])]
  show ("ENTRY       EC ".toList ++ i)
      ++ List.replicate (40 - ("ENTRY       EC ".toList ++ i).length) ' '
      ++ "Enzyme".toList = _
  rw [entry_head_len i]
  simp [List.append_assoc]

lemma enzStep_entryLine (esrc : KEnz) (i : Str) (hid : esrc.id = some i) (hi : wordOk i)
    (hfit1 : esrc.obsolete ≠ 0 → 15 + i.length + 1 ≤ 30)
    (hfit2 : esrc.obsolete = 0 → 15 + i.length + 1 ≤ 40)
    (e : KEnz) (fn : Option Str) (ws : List Str) :
    enzStep ⟨e, fn, ws⟩ (KeggEnzyme.entryLine esrc) =
      some ⟨{ e with
                id := some i,
                obsolete := if esrc.obsolete ≠ 0 then 1 else e.obsolete },
            some "ENTRY".toList, ws⟩ := by
  by_cases hob : esrc.obsolete ≠ 0
  · rw [entryLine_shape_obs esrc i hid hob]
    have hpad : 1 ≤ 30 - (15 + i.length) := by have := hfit1 hob; omega
    have hps := pyStrip_entry_value i (30 - (15 + i.length)) "Obsolete  Enzyme".toList
      (by decide) (by decide)
    have hparts : pySplitWS (pyStrip ("EC ".toList ++ (i ++ (List.replicate
          (30 - (15 + i.length)) ' ' ++ "Obsolete  Enzyme".toList)))) =
        "EC".toList :: i :: "Obsolete".toList :: ["Enzyme".toList] := by
      rw [hps, split_entry_value i hi _ hpad]
      rfl
    rw [enzStep_entry e fn ws _ hparts, if_pos rfl, if_pos hob]
  · rw [entryLine_shape_act esrc i hid (by omega)]
    have hpad : 1 ≤ 40 - (15 + i.length) := by have := hfit2 (by omega); omega
    have hps := pyStrip_entry_value i (40 - (15 + i.length)) "Enzyme".toList
      (by decide) (by decide)
    have hparts : pySplitWS (pyStrip ("EC ".toList ++ (i ++ (List.replicate
          (40 - (15 + i.length)) ' ' ++ "Enzyme".toList)))) =
        "EC".toList :: i :: "Enzyme".toList :: [] := by
      rw [hps, split_entry_value i hi _ hpad]
      rfl
    rw [enzStep_entry e fn ws _ hparts, if_neg (by decide), if_neg hob]

lemma entryLine_not_term (e : KEnz) : (KeggEnzyme.entryLine e).take 3 ≠ slash3 := by
  unfold KeggEnzyme.entryLine
  by_cases hob : e.obsolete ≠ 0
  · rw [if_pos hob, List.append_assoc, List.append_assoc,
      List.take_append_of_le_length (by decide)]
    decide
  · rw [if_neg hob, List.append_assoc, List.append_assoc,
      List.take_append_of_le_length (by decide)]
    decide

/-! ## Chaining the segments of a record -/

lemma chain_name (xs : List Str) (b : List Str) (e : KEnz) (fn : Option Str) (ws : List Str)
    (hall : ∀ x ∈ xs, semiOk x) :
    ∃ fn', enzGo ⟨e, fn, ws⟩ (KeggEnzyme.semiSeg "NAME        ".toList xs ++ b) =
      enzGo ⟨{ e with name := e.name ++ xs }, fn', ws⟩ b := by
  cases xs with
  | nil =>
    refine ⟨fn, ?_⟩
    rw [show KeggEnzyme.semiSeg "NAME        ".toList [] = [] from rfl, List.nil_append,
      List.append_nil]
  | cons x rest =>
    refine ⟨some "NAME".toList, ?_⟩
    rw [enzGo_append (semiSeg_noTerm (by decide) (by decide) (x :: rest)) b,
      enzGo_name_seg (x :: rest) e fn ws hall (by simp)]

lemma chain_class (xs : List Str) (b : List Str) (e : KEnz) (fn : Option Str) (ws : List Str)
    (hall : ∀ x ∈ xs, semiOk x) :
    ∃ fn', enzGo ⟨e, fn, ws⟩ (KeggEnzyme.semiSeg "CLASS       ".toList xs ++ b) =
      enzGo ⟨{ e with classname := e.classname ++ xs }, fn', ws⟩ b := by
  cases xs with
  | nil =>
    refine ⟨fn, ?_⟩
    rw [show KeggEnzyme.semiSeg "CLASS       ".toList [] = [] from rfl, List.nil_append,
      List.append_nil]
  | cons x rest =>
    refine ⟨some "CLASS".toList, ?_⟩
    rw [enzGo_append (semiSeg_noTerm (by decide) (by decide) (x :: rest)) b,
      enzGo_class_seg (x :: rest) e fn ws hall (by simp)]

lemma chain_sysname (so : Option Str) (b : List Str) (e : KEnz) (fn : Option Str)
    (ws : List Str) (hs : ∀ s, so = some s → pyStrip s = s) :
    ∃ fn', enzGo ⟨e, fn, ws⟩
        ((match so with
          | none => ([] : List Str)
          | some s => ["SYSNAME     ".toList ++ s]) ++ b) =
      enzGo ⟨{ e with sysname := match so with | none => e.sysname | some s => some s },
             fn', ws⟩ b := by
  cases so with
  | none =>
    refine ⟨fn, ?_⟩
    rw [List.nil_append]
  | some s =>
    refine ⟨some "SYSNAME".toList, ?_⟩
    rw [show ((match (some s : Option Str) with
        | none => ([] : List Str)
        | some s => ["SYSNAME     ".toList ++ s])) = ["SYSNAME     ".toList ++ s] from rfl]
    rw [enzGo_append (by
        intro l hl
        obtain rfl : l = "SYSNAME     ".toList ++ s := by simpa using hl
        exact field_not_term (by decide) (by decide) s) b,
      enzGo_sysname s (hs s rfl) e fn ws]

lemma chain_reaction (xs : List Str) (b : List Str) (e : KEnz) (fn : Option Str) (ws : List Str)
    (hall : ∀ x ∈ xs, semiOk x) :
    ∃ fn', enzGo ⟨e, fn, ws⟩ (KeggEnzyme.semiSeg "REACTION    ".toList xs ++ b) =
      enzGo ⟨{ e with
                 rxnid := e.rxnid ++ concatLists (xs.map rnIds),
                 reaction := e.reaction ++ xs }, fn', ws⟩ b := by
  cases xs with
  | nil =>
    refine ⟨fn, ?_⟩
    rw [show KeggEnzyme.semiSeg "REACTION    ".toList [] = [] from rfl, List.nil_append]
    rw [show concatLists (List.map rnIds []) = [] from rfl, List.append_nil, List.append_nil]
  | cons x rest =>
    refine ⟨some "REACTION".toList, ?_⟩
    rw [enzGo_append (semiSeg_noTerm (by decide) (by decide) (x :: rest)) b,
      enzGo_reaction_seg (x :: rest) e fn ws hall (by simp)]

lemma chain_allreac (xs : List Str) (b : List Str) (e : KEnz) (fn : Option Str) (ws : List Str)
    (hall : ∀ x ∈ xs, semiOk x) :
    ∃ fn', enzGo ⟨e, fn, ws⟩ (KeggEnzyme.semiSeg "ALL_REAC    ".toList xs ++ b) =
      enzGo ⟨{ e with allreactions := e.allreactions ++ xs }, fn', ws⟩ b := by
  cases xs with
  | nil =>
    refine ⟨fn, ?_⟩
    rw [show KeggEnzyme.semiSeg "ALL_REAC    ".toList [] = [] from rfl, List.nil_append,
      List.append_nil]
  | cons x rest =>
    refine ⟨some "ALL_REAC".toList, ?_⟩
    rw [enzGo_append (semiSeg_noTerm (by decide) (by decide) (x :: rest)) b,
      enzGo_allreac_seg (x :: rest) e fn ws hall (by simp)]

lemma chain_substrate (xs : List Str) (b : List Str) (e : KEnz) (fn : Option Str) (ws : List Str)
    (hall : ∀ x ∈ xs, semiOk x) :
    ∃ fn', enzGo ⟨e, fn, ws⟩ (KeggEnzyme.semiSeg "SUBSTRATE   ".toList xs ++ b) =
      enzGo ⟨{ e with substrate := e.substrate ++ xs }, fn', ws⟩ b := by
  cases xs with
  | nil =>
    refine ⟨fn, ?_⟩
    rw [show KeggEnzyme.semiSeg "SUBSTRATE   ".toList [] = [] from rfl, List.nil_append,
      List.append_nil]
  | cons x rest =>
    refine ⟨some "SUBSTRATE".toList, ?_⟩
    rw [enzGo_append (semiSeg_noTerm (by decide) (by decide) (x :: rest)) b,
      enzGo_substrate_seg (x :: rest) e fn ws hall (by simp)]

lemma chain_product (xs : List Str) (b : List Str) (e : KEnz) (fn : Option Str) (ws : List Str)
    (hall : ∀ x ∈ xs, semiOk x) :
    ∃ fn', enzGo ⟨e, fn, ws⟩ (KeggEnzyme.semiSeg "PRODUCT     ".toList xs ++ b) =
      enzGo ⟨{ e with product := e.product ++ xs }, fn', ws⟩ b := by
  cases xs with
  | nil =>
    refine ⟨fn, ?_⟩
    rw [show KeggEnzyme.semiSeg "PRODUCT     ".toList [] = [] from rfl, List.nil_append,
      List.append_nil]
  | cons x rest =>
    refine ⟨some "PRODUCT".toList, ?_⟩
    rw [enzGo_append (semiSeg_noTerm (by decide) (by decide) (x :: rest)) b,
      enzGo_product_seg (x :: rest) e fn ws hall (by simp)]

lemma chain_comment (xs : List Str) (b : List Str) (e : KEnz) (fn : Option Str) (ws : List Str)
    (hall : ∀ x ∈ xs, pyStrip x = x) :
    ∃ fn', enzGo ⟨e, fn, ws⟩ (KeggEnzyme.commentSeg xs ++ b) =
      enzGo ⟨{ e with comment := e.comment ++ xs }, fn', ws⟩ b := by
  cases xs with
  | nil =>
    refine ⟨fn, ?_⟩
    rw [show KeggEnzyme.commentSeg [] = [] from rfl, List.nil_append, List.append_nil]
  | cons x rest =>
    refine ⟨some "COMMENT".toList, ?_⟩
    rw [enzGo_append (commentSeg_noTerm (x :: rest)) b,
      enzGo_comment_seg (x :: rest) e fn ws hall (by simp)]

lemma chain_pathway (ps : List (Str × Str)) (b : List Str) (e : KEnz) (fn : Option Str)
    (ws : List Str) (hall : ∀ p ∈ ps, pairOk 7 p) :
    ∃ fn', enzGo ⟨e, fn, ws⟩ (KeggEnzyme.pairSeg "PATHWAY     ".toList ps ++ b) =
      enzGo ⟨{ e with pathway := e.pathway ++ ps }, fn', ws⟩ b := by
  cases ps with
  | nil =>
    refine ⟨fn, ?_⟩
    rw [show KeggEnzyme.pairSeg "PATHWAY     ".toList [] = [] from rfl, List.nil_append,
      List.append_nil]
  | cons p rest =>
    refine ⟨some "PATHWAY".toList, ?_⟩
    rw [enzGo_append (pairSeg_noTerm (by decide) (by decide) (p :: rest)) b,
      enzGo_pathway_seg (p :: rest) e fn ws hall (by simp)]

lemma chain_orthology (ps : List (Str × Str)) (b : List Str) (e : KEnz) (fn : Option Str)
    (ws : List Str) (hall : ∀ p ∈ ps, pairOk 6 p) :
    ∃ fn', enzGo ⟨e, fn, ws⟩ (KeggEnzyme.pairSeg "ORTHOLOGY   ".toList ps ++ b) =
      enzGo ⟨{ e with orthology := e.orthology ++ ps }, fn', ws⟩ b := by
  cases ps with
  | nil =>
    refine ⟨fn, ?_⟩
    rw [show KeggEnzyme.pairSeg "ORTHOLOGY   ".toList [] = [] from rfl, List.nil_append,
      List.append_nil]
  | cons p rest =>
    refine ⟨some "ORTHOLOGY".toList, ?_⟩
    rw [enzGo_append (pairSeg_noTerm (by decide) (by decide) (p :: rest)) b,
      enzGo_orthology_seg (p :: rest) e fn ws hall (by simp)]

lemma chain_genes (gl : List (Str × List Str)) (b : List Str) (e : KEnz) (fn : Option Str)
    (ws : List Str) (hall : ∀ g ∈ gl, geneOk g)
    (hsorted : gl.Pairwise (fun a b => strLe a.1 b.1 = true ∧ a.1 ≠ b.1)) :
    ∃ fn', enzGo ⟨e, fn, ws⟩ (KeggEnzyme.genesSeg gl ++ b) =
      enzGo ⟨{ e with genes := gl.foldl (fun d g => assocSet d g.1 g.2) e.genes },
             fn', ws⟩ b := by
  cases gl with
  | nil =>
    refine ⟨fn, ?_⟩
    rw [show KeggEnzyme.genesSeg [] = [] from rfl, List.nil_append]
    rfl
  | cons g rest =>
    refine ⟨some "GENES".toList, ?_⟩
    rw [enzGo_append (genesSeg_noTerm (g :: rest)) b,
      enzGo_genes_seg (g :: rest) e fn ws hall hsorted (by simp)]

lemma enzGo_cons_step {st st' : EPState} {l : Str} (hterm : l.take 3 ≠ slash3)
    (hstep : enzStep st l = some st') (rest : List Str) :
    enzGo st (l :: rest) = enzGo st' rest := by
  rw [enzGo, if_neg hterm, hstep]

/-- Well-formedness of a KeggEnzyme object for the serialization round trip.
Every condition holds for enzymes produced by `KeggEnzyme.parse` from KEGG
data: the id is a whitespace-free word short enough for the fixed ENTRY
padding, the obsolete flag is 0/1, multi-value strings are trimmed and free of
surrounding semicolons, pathway/orthology ids have their fixed widths, genes
keys are lower-case colon-free words stored in strictly sorted order, and
`rxnid` coincides with the ids extracted from the REACTION strings (it is a
field `parse` derives from them). -/
def EnzymeWF (e : KEnz) : Prop :=
  (∃ i, e.id = some i ∧ wordOk i
    ∧ (e.obsolete ≠ 0 → 15 + i.length + 1 ≤ 30)
    ∧ (e.obsolete = 0 → 15 + i.length + 1 ≤ 40))
  ∧ e.obsolete ≤ 1
  ∧ (∀ x ∈ e.name, semiOk x)
  ∧ (∀ x ∈ e.classname, semiOk x)
  ∧ (∀ s, e.sysname = some s → pyStrip s = s)
  ∧ (∀ x ∈ e.reaction, semiOk x)
  ∧ e.rxnid = concatLists (e.reaction.map rnIds)
  ∧ (∀ x ∈ e.allreactions, semiOk x)
  ∧ (∀ x ∈ e.substrate, semiOk x)
  ∧ (∀ x ∈ e.product, semiOk x)
  ∧ (∀ x ∈ e.comment, pyStrip x = x)
  ∧ (∀ p ∈ e.pathway, pairOk 7 p)
  ∧ (∀ p ∈ e.orthology, pairOk 6 p)
  ∧ (∀ g ∈ e.genes, geneOk g)
  ∧ e.genes.Pairwise (fun a b => strLe a.1 b.1 = true ∧ a.1 ≠ b.1)

lemma keggEnzyme_roundtrip_aux (e : KEnz) (h : EnzymeWF e) :
    KeggEnzyme.parse (KeggEnzyme.make_record e) = some e := by
  obtain ⟨⟨i, hid, hi, hf1, hf2⟩, hob, hname, hclass, hsys, hreac, hrx, hallr, hsub, hprod,
    hcom, hpath, horth, hgene, hsort⟩ := h
  unfold KeggEnzyme.parse KeggEnzyme.make_record
  rw [enzGo_cons_step (entryLine_not_term e)
    (enzStep_entryLine e i hid hi hf1 hf2 ({} : KEnz) none [])]
  dsimp only
  simp only [List.append_assoc]
  obtain ⟨fn1, h1⟩ := chain_name e.name _ _ (some "ENTRY".toList) [] hname
  rw [h1]
  dsimp only
  obtain ⟨fn2, h2⟩ := chain_class e.classname _ _ fn1 [] hclass
  rw [h2]
  dsimp only
  obtain ⟨fn3, h3⟩ := chain_sysname e.sysname _ _ fn2 [] hsys
  rw [h3]
  dsimp only
  obtain ⟨fn4, h4⟩ := chain_reaction e.reaction _ _ fn3 [] hreac
  rw [h4]
  dsimp only
  obtain ⟨fn5, h5⟩ := chain_allreac e.allreactions _ _ fn4 [] hallr
  rw [h5]
  dsimp only
  obtain ⟨fn6, h6⟩ := chain_substrate e.substrate _ _ fn5 [] hsub
  rw [h6]
  dsimp only
  obtain ⟨fn7, h7⟩ := chain_product e.product _ _ fn6 [] hprod
  rw [h7]
  dsimp only
  obtain ⟨fn8, h8⟩ := chain_comment e.comment _ _ fn7 [] hcom
  rw [h8]
  dsimp only
  obtain ⟨fn9, h9⟩ := chain_pathway e.pathway _ _ fn8 [] hpath
  rw [h9]
  dsimp only
  obtain ⟨fn10, h10⟩ := chain_orthology e.orthology _ _ fn9 [] horth
  rw [h10]
  dsimp only
  obtain ⟨fn11, h11⟩ := chain_genes e.genes _ _ fn10 [] hgene hsort
  rw [h11]
  dsimp only
  rw [show ∀ st : EPState, enzGo st [slash3] = some st from fun st => by
    rw [enzGo, if_pos (by decide)]]
  have hfold : e.genes.foldl (fun d g => assocSet d g.1 g.2) [] = e.genes := by
    rw [foldl_assocSet_fresh e.genes [] (by simp) (hsort.imp (fun h => h.2))]
    simp
  cases e with
  | mk f1 f2 f3 f4 f5 f6 f7 f8 f9 f10 f11 f12 f13 f14 =>
    dsimp only [Option.map]
    simp only [Option.some.injEq, KEnz.mk.injEq]
    refine ⟨hid.symm, rfl, ?_, rfl, ?_, rfl, hrx.symm, rfl, rfl, rfl, rfl, rfl, rfl, hfold⟩
    · have hob2 : f3 ≤ 1 := hob
      by_cases h3 : f3 = 0
      · simp [h3]
      · simp [h3]
        omega
    · cases f5 <;> rfl

/-! ## Record reader and database lemmas -/

lemma getRecGo_eq_specTermGo (lines : List Str) (h : ∀ l ∈ lines, stripNl l = l) :
    ∀ acc, getRecGo lines acc = specTermGo lines acc := by
  induction lines with
  | nil => intro acc; rfl
  | cons l ls ih =>
    intro acc
    rw [getRecGo, specTermGo, h l (by simp)]
    by_cases ht : l.take 3 = slash3
    · rw [if_pos ht, if_pos ht, ih (fun x hx => h x (by simp [hx])) []]
    · rw [if_neg ht, if_neg ht, ih (fun x hx => h x (by simp [hx])) (acc ++ [l])]

lemma hasId_false_iff (idf : α → β) [DecidableEq β] (rs : List α) (i : β) :
    hasId idf rs i = false ↔ ∀ x ∈ rs, idf x ≠ i := by
  simp [hasId]

lemma hasId_append_self (idf : α → β) [DecidableEq β] (rs : List α) (e : α) :
    hasId idf (rs ++ [e]) (idf e) = true := by
  simp [hasId]

lemma replaceOnId_fresh_append (idf : α → β) [DecidableEq β] {rs : List α} {e : α}
    (h : ∀ x ∈ rs, idf x ≠ idf e) (post : List α) :
    replaceOnId idf e (rs ++ e :: post) = rs ++ e :: post := by
  induction rs with
  | nil => rw [List.nil_append, replaceOnId, if_pos rfl]
  | cons a as ih =>
    rw [List.cons_append, replaceOnId, if_neg (h a (by simp)),
      ih (fun x hx => h x (by simp [hx]))]

lemma replaceOnId_decomp (idf : α → β) [DecidableEq β] (rs : List α) (e : α)
    (h : hasId idf rs (idf e) = true) :
    ∃ pre x post, rs = pre ++ x :: post ∧ idf x = idf e ∧ (∀ y ∈ pre, idf y ≠ idf e) ∧
      replaceOnId idf e rs = pre ++ e :: post := by
  induction rs with
  | nil => simp [hasId] at h
  | cons a as ih =>
    by_cases ha : idf a = idf e
    · exact ⟨[], a, as, by simp, ha, by simp, by rw [replaceOnId, if_pos ha]; rfl⟩
    · have h' : hasId idf as (idf e) = true := by
        simpa [hasId, ha] using h
      obtain ⟨pre, x, post, h1, h2, h3, h4⟩ := ih h'
      refine ⟨a :: pre, x, post, by rw [h1]; rfl, h2, ?_, ?_⟩
      · intro y hy
        rcases List.mem_cons.mp hy with rfl | hy'
        · exact ha
        · exact h3 y hy'
      · rw [replaceOnId, if_neg ha, h4]
        rfl

lemma getById_dbUpdate (idf : α → β) [DecidableEq β] (rs : List α) (e : α) :
    getById idf (dbUpdate idf rs e) (idf e) = some e := by
  unfold dbUpdate
  by_cases h : hasId idf rs (idf e) = true
  · rw [if_pos h]
    obtain ⟨pre, x, post, _, _, h3, h4⟩ := replaceOnId_decomp idf rs e h
    rw [h4]
    unfold getById
    rw [List.find?_append, List.find?_eq_none.mpr (by
      intro y hy
      simp [h3 y hy])]
    simp
  · rw [if_neg h]
    unfold getById
    rw [List.find?_append, List.find?_eq_none.mpr (by
      intro y hy
      have := (hasId_false_iff idf rs (idf e)).mp (by simpa using h) y hy
      simp [this])]
    simp

lemma dbUpdate_twice (idf : α → β) [DecidableEq β] (rs : List α) (e : α) :
    dbUpdate idf (dbUpdate idf rs e) e = dbUpdate idf rs e := by
  unfold dbUpdate
  by_cases h : hasId idf rs (idf e) = true
  · rw [if_pos h]
    obtain ⟨pre, x, post, _, _, h3, h4⟩ := replaceOnId_decomp idf rs e h
    rw [h4, if_pos (by simp [hasId]), replaceOnId_fresh_append idf h3 post]
  · rw [if_neg h, if_pos (hasId_append_self idf rs e),
      replaceOnId_fresh_append idf ((hasId_false_iff idf rs (idf e)).mp (by simpa using h)) []]

/-! ## Claim theorems -/

/-- C1 (counterexample): the round-trip law as stated fails for a KeggEnzyme
whose `rxnid` list is not the one derived from its `reaction` strings: writing
such an enzyme and re-parsing loses the `rxnid` entries, because `parse`
recomputes them from the REACTION lines and `make_record` never writes them. -/
theorem keggEnzyme_roundtrip_cex :
    KeggEnzyme.parse (KeggEnzyme.make_record
      { id := some "1.1.1.1".toList, rxnid := ["R00001".toList] })
      ≠ some ({ id := some "1.1.1.1".toList, rxnid := ["R00001".toList] } : KEnz) := by
  decide

/-- C1 (amended): for every well-formed KeggEnzyme `e` — id present and a
whitespace-free word short enough for the fixed ENTRY padding, obsolete flag
0/1, multi-value field strings trimmed and free of surrounding semicolons,
pathway/orthology ids of widths 7/6 with trimmed parts, genes keys lower-case
colon-free words in strictly sorted order with word-shaped gene ids, and
`rxnid` equal to the reaction ids extracted from the `reaction` strings —
parsing the record produced by `make_record e` yields `e` back,
field-for-field.  This covers 0, 1 and more than 1 values in every
multi-value field, and both obsolete and non-obsolete enzymes. -/
theorem keggEnzyme_roundtrip (e : KEnz) (h : EnzymeWF e) :
    KeggEnzyme.parse (KeggEnzyme.make_record e) = some e :=
  keggEnzyme_roundtrip_aux e h

/-- C1 (witness): the round trip at a concrete enzyme with multi-value
fields, a REACTION cross-reference and a genes map. -/
theorem keggEnzyme_roundtrip_witness :
    KeggEnzyme.parse (KeggEnzyme.make_record
      { id := some "1.1.1.1".toList,
        name := ["alcohol dehydrogenase".toList, "ADH".toList],
        reaction := ["R00754 [RN:R00754]".toList],
        rxnid := ["R00754".toList],
        pathway := [("ec00010".toList, "Glycolysis".toList)],
        genes := [("eco".toList, ["b0356".toList])] })
      = some
      { id := some "1.1.1.1".toList,
        name := ["alcohol dehydrogenase".toList, "ADH".toList],
        reaction := ["R00754 [RN:R00754]".toList],
        rxnid := ["R00754".toList],
        pathway := [("ec00010".toList, "Glycolysis".toList)],
        genes := [("eco".toList, ["b0356".toList])] } :=
  keggEnzyme_roundtrip _
    ⟨⟨"1.1.1.1".toList, rfl, by decide, by decide, by decide⟩, by decide, by decide,
      by decide, fun s hs => Option.noConfusion hs, by decide, by decide, by decide,
      by decide, by decide, by decide, by decide, by decide, by decide, by decide⟩

/-- C3 (counterexample): `get_record` treats any line whose first three
characters are `///` as a terminator, not only a line exactly equal to `///`:
on input `["ab", "///x"]` it yields one record while the spec's exact-match
reading yields none. -/
theorem get_record_exact_terminator_cex :
    get_record ["ab".toList, "///x".toList] ≠ specSplitExact ["ab".toList, "///x".toList] := by
  decide

/-- C3 (amended): for every finite list of input lines (with no newline
characters to strip), `get_record` yields exactly the complete records in
order, each running from just after the previous terminator through and
including a line whose first three characters are `///`; trailing lines after
the last terminator are never yielded (`specSplitTerm` is that specification,
modelled from the spec text with the amended terminator test). -/
theorem get_record_splits_records (lines : List Str) (h : ∀ l ∈ lines, stripNl l = l) :
    get_record lines = specSplitTerm lines :=
  getRecGo_eq_specTermGo lines h []

/-- C3 (witness): the record reader on a concrete input with a trailing
partial record. -/
theorem get_record_splits_records_witness :
    get_record ["ENTRY       EC 1.1.1.1".toList, "///".toList, "junk".toList] =
      specSplitTerm ["ENTRY       EC 1.1.1.1".toList, "///".toList, "junk".toList] :=
  get_record_splits_records _ (by decide)

/-- C4: upsert semantics of `KeggDatabase.update` on a database keyed by
`idf`: updating twice with the same entity is idempotent; after an update the
entity is retrievable by its id; when the id is absent the entity is appended
at the end; when the id is present the stored record is replaced in place,
preserving its ordinal position (the database decomposes around the first
record with that id and only that slot changes). -/
theorem dbUpdate_upsert (idf : α → β) [DecidableEq β] (rs : List α) (e : α) :
    dbUpdate idf (dbUpdate idf rs e) e = dbUpdate idf rs e
    ∧ getById idf (dbUpdate idf rs e) (idf e) = some e
    ∧ (hasId idf rs (idf e) = false → dbUpdate idf rs e = rs ++ [e])
    ∧ (hasId idf rs (idf e) = true →
        ∃ pre x post, rs = pre ++ x :: post ∧ idf x = idf e ∧ (∀ y ∈ pre, idf y ≠ idf e)
          ∧ dbUpdate idf rs e = pre ++ e :: post) := by
  refine ⟨dbUpdate_twice idf rs e, getById_dbUpdate idf rs e, ?_, ?_⟩
  · intro h
    unfold dbUpdate
    rw [if_neg (by simp [h])]
  · intro h
    obtain ⟨pre, x, post, h1, h2, h3, h4⟩ := replaceOnId_decomp idf rs e h
    refine ⟨pre, x, post, h1, h2, h3, ?_⟩
    unfold dbUpdate
    rw [if_pos h, h4]

/-- C4 (witness): replacement in place at a concrete database. -/
theorem dbUpdate_upsert_witness :
    ∃ pre x post, ([((1 : Nat), (10 : Nat)), (2, 20)] : List (Nat × Nat)) = pre ++ x :: post
      ∧ x.1 = (((1 : Nat), (99 : Nat))).1 ∧ (∀ y ∈ pre, y.1 ≠ (((1 : Nat), (99 : Nat))).1)
      ∧ dbUpdate Prod.fst [((1 : Nat), (10 : Nat)), (2, 20)] (1, 99) = pre ++ (1, 99) :: post :=
  (dbUpdate_upsert Prod.fst [((1 : Nat), (10 : Nat)), (2, 20)] (1, 99)).2.2.2 (by decide)

/-- C7: for every organism database whose record count is greater than zero,
`download` fails fast with the descriptive `DatabaseError` message; in this
pure embedding no updated database is produced, so neither the records
collection nor the code-to-id index is changed by the failed call. -/
theorem download_requires_empty (db : OrgDb) (ol : List Str)
    (h : 0 < db.records.length) :
    KeggOrganismDatabase.download db ol =
      Except.error
        "Organism database must be empty before downloading from web service".toList := by
  unfold KeggOrganismDatabase.download
  rw [if_pos h]

/-- C7 (witness): the failure at a concrete one-organism database. -/
theorem download_requires_empty_witness :
    KeggOrganismDatabase.download
      ⟨[⟨"T00001".toList, "eco".toList, "Escherichia coli".toList,
         ["Prokaryotes".toList], 0, "Escherichia coli".toList⟩], []⟩ [] =
      Except.error
        "Organism database must be empty before downloading from web service".toList :=
  download_requires_empty _ _ (by decide)

/-- C9: the inherited `update` touches only the records, never the
`code_to_id` secondary index; hence for an organism `o` whose code is absent
from the index, after `update db o` the code lookup still fails
(`has_code` is false and `get_by_code` raises, modelled as `none`) even
though `get_by_id o.id` succeeds and returns `o`. -/
theorem orgdb_update_leaves_code_index (db : OrgDb) (o : KOrg)
    (h : assocGet db.code_to_id o.code = none) :
    (KeggOrganismDatabase.update db o).code_to_id = db.code_to_id
    ∧ KeggOrganismDatabase.has_code (KeggOrganismDatabase.update db o) o.code = false
    ∧ KeggOrganismDatabase.get_by_code (KeggOrganismDatabase.update db o) o.code = none
    ∧ getById (fun x => x.id) (KeggOrganismDatabase.update db o).records o.id = some o := by
  refine ⟨rfl, ?_, ?_, ?_⟩
  · unfold KeggOrganismDatabase.has_code KeggOrganismDatabase.update
    simp [h]
  · unfold KeggOrganismDatabase.get_by_code KeggOrganismDatabase.update
    simp [h]
  · exact getById_dbUpdate (fun x : KOrg => x.id) db.records o

/-- C9 (witness): at a concrete database that holds one organism but whose
code index was never rebuilt after the update. -/
theorem orgdb_update_leaves_code_index_witness :
    (KeggOrganismDatabase.update ⟨[], []⟩
        ⟨"T00001".toList, "eco".toList, "Escherichia coli".toList,
         ["Prokaryotes".toList], 0, "Escherichia coli".toList⟩).code_to_id = []
    ∧ KeggOrganismDatabase.has_code
        (KeggOrganismDatabase.update ⟨[], []⟩
          ⟨"T00001".toList, "eco".toList, "Escherichia coli".toList,
           ["Prokaryotes".toList], 0, "Escherichia coli".toList⟩) "eco".toList = false
    ∧ KeggOrganismDatabase.get_by_code
        (KeggOrganismDatabase.update ⟨[], []⟩
          ⟨"T00001".toList, "eco".toList, "Escherichia coli".toList,
           ["Prokaryotes".toList], 0, "Escherichia coli".toList⟩) "eco".toList = none
    ∧ getById (fun x => x.id)
        (KeggOrganismDatabase.update ⟨[], []⟩
          ⟨"T00001".toList, "eco".toList, "Escherichia coli".toList,
           ["Prokaryotes".toList], 0, "Escherichia coli".toList⟩).records "T00001".toList =
        some ⟨"T00001".toList, "eco".toList, "Escherichia coli".toList,
          ["Prokaryotes".toList], 0, "Escherichia coli".toList⟩ :=
  orgdb_update_leaves_code_index ⟨[], []⟩ _ rfl

/-- C8: the first line of `make_record e` is the ENTRY line; it begins with
`ENTRY       EC ` followed by the enzyme id; when the enzyme is obsolete and
the unpadded prefix fits, the suffix `Obsolete  Enzyme` starts at column 30;
when it is not obsolete and the prefix fits, the suffix `Enzyme` starts at
column 40. -/
theorem entry_line_wire_format (e : KEnz) (i : Str) (hid : e.id = some i) :
    (KeggEnzyme.make_record e).head? = some (KeggEnzyme.entryLine e)
    ∧ ("ENTRY       EC ".toList ++ i).isPrefixOf (KeggEnzyme.entryLine e) = true
    ∧ (e.obsolete ≠ 0 → 15 + i.length ≤ 30 →
        (KeggEnzyme.entryLine e).drop 30 = "Obsolete  Enzyme".toList)
    ∧ (e.obsolete = 0 → 15 + i.length ≤ 40 →
        (KeggEnzyme.entryLine e).drop 40 = "Enzyme".toList) := by
  refine ⟨rfl, ?_, ?_, ?_⟩
  · unfold KeggEnzyme.entryLine
    rw [hid]
    rw [List.isPrefixOf_iff_prefix]
    show ("ENTRY       EC ".toList ++ i) <+: _
    by_cases hob : e.obsolete ≠ 0
    · rw [if_pos hob, List.append_assoc]
      exact List.prefix_append _ _
    · rw [if_neg hob, List.append_assoc]
      exact List.prefix_append _ _
  · intro hob hfit
    unfold KeggEnzyme.entryLine
    rw [hid, if_pos hob]
    show ((("ENTRY       EC ".toList ++ i)
        ++ List.replicate (30 - ("ENTRY       EC ".toList ++ i).length) ' ')
        ++ "Obsolete  Enzyme".toList).drop 30 = _
    exact List.drop_left' (by
      rw [List.length_append, entry_head_len i, List.length_replicate]
      omega)
  · intro hob hfit
    unfold KeggEnzyme.entryLine
    rw [hid, if_neg (by simp [hob])]
    show ((("ENTRY       EC ".toList ++ i)
        ++ List.replicate (40 - ("ENTRY       EC ".toList ++ i).length) ' ')
        ++ "Enzyme".toList).drop 40 = _
    exact List.drop_left' (by
      rw [List.length_append, entry_head_len i, List.length_replicate]
      omega)

/-- C8 (witness): the wire format at a concrete obsolete enzyme. -/
theorem entry_line_wire_format_witness :
    (KeggEnzyme.make_record { id := some "1.1.1.74".toList, obsolete := 1 }).head? =
        some (KeggEnzyme.entryLine { id := some "1.1.1.74".toList, obsolete := 1 })
    ∧ ("ENTRY       EC ".toList ++ "1.1.1.74".toList).isPrefixOf
        (KeggEnzyme.entryLine { id := some "1.1.1.74".toList, obsolete := 1 }) = true
    ∧ (({ id := some "1.1.1.74".toList, obsolete := 1 } : KEnz).obsolete ≠ 0 →
        15 + "1.1.1.74".toList.length ≤ 30 →
        (KeggEnzyme.entryLine { id := some "1.1.1.74".toList, obsolete := 1 }).drop 30 =
          "Obsolete  Enzyme".toList)
    ∧ (({ id := some "1.1.1.74".toList, obsolete := 1 } : KEnz).obsolete = 0 →
        15 + "1.1.1.74".toList.length ≤ 40 →
        (KeggEnzyme.entryLine { id := some "1.1.1.74".toList, obsolete := 1 }).drop 40 =
          "Enzyme".toList) :=
  entry_line_wire_format { id := some "1.1.1.74".toList, obsolete := 1 } "1.1.1.74".toList rfl

/-- C10: the ENTRY branch of `KeggEnzyme.parse` reads the third whitespace
token of the ENTRY value unconditionally.  For every line whose 12-character
tag is ENTRY and whose value splits into at least three tokens the step
succeeds (the out-of-bounds access is unreachable); and parsing the record
whose ENTRY value is just `EC 1.1.1.1` (two tokens, no classification word)
fails with an IndexError, modelled as `none`. -/
theorem entry_parse_token_requirement :
    (∀ (st : EPState) (line : Str),
        pyStrip (line.take 12) = "ENTRY".toList →
        3 ≤ (pySplitWS (pyStrip (line.drop 12))).length →
        ∃ st', enzStep st line = some st')
    ∧ KeggEnzyme.parse ["ENTRY       EC 1.1.1.1".toList, "///".toList] = none := by
  constructor
  · intro st line htag hlen
    have hnb : line.take 12 ≠ blank12 := by
      intro hb
      rw [hb] at htag
      exact absurd htag (by decide)
    obtain ⟨a, rest1, h1⟩ : ∃ a r, pySplitWS (pyStrip (line.drop 12)) = a :: r := by
      cases hc : pySplitWS (pyStrip (line.drop 12)) with
      | nil => rw [hc] at hlen; simp at hlen
      | cons a r => exact ⟨a, r, rfl⟩
    obtain ⟨b, rest2, h2⟩ : ∃ b r, rest1 = b :: r := by
      cases hc : rest1 with
      | nil => rw [hc] at h1; rw [h1] at hlen; simp at hlen
      | cons b r => exact ⟨b, r, rfl⟩
    obtain ⟨c, rest3, h3⟩ : ∃ c r, rest2 = c :: r := by
      cases hc : rest2 with
      | nil => rw [hc] at h2; rw [h2] at h1; rw [h1] at hlen; simp at hlen
      | cons c r => exact ⟨c, r, rfl⟩
    unfold enzStep
    rw [if_neg hnb, htag]
    dsimp only
    rw [if_pos rfl, h1, h2, h3]
    simp only [List.getElem?_cons_succ, List.getElem?_cons_zero]
    exact ⟨_, rfl⟩
  · decide

/-- C10 (witness): the step succeeds at a concrete three-token ENTRY line. -/
theorem entry_parse_token_requirement_witness :
    ∃ st', enzStep ⟨{}, none, []⟩ "ENTRY       EC 1.1.1.1  Enzyme".toList = some st' :=
  entry_parse_token_requirement.1 ⟨{}, none, []⟩ _ (by decide) (by decide)

/-! ## Unknown-field handling (C2) -/

/-- Every field tag recognized by either dispatch table (enzyme or reaction). -/
def allKeggTags : List Str :=
  ["ENTRY".toList, "NAME".toList, "DEFINITION".toList, "EQUATION".toList, "REMARK".toList,
   "COMMENT".toList, "RPAIR".toList, "RCLASS".toList, "ENZYME".toList, "PATHWAY".toList,
   "ORTHOLOGY".toList, "REFERENCE".toList, "MODULE".toList, "CLASS".toList, "SYSNAME".toList,
   "REACTION".toList, "ALL_REAC".toList, "SUBSTRATE".toList, "PRODUCT".toList, "GENES".toList]

lemma rxnStep_field {tag12 : Str} (hlen : tag12.length = 12) (hnb : tag12 ≠ blank12)
    (hne : pyStrip tag12 ≠ "ENTRY".toList) (r : KRxn) (fn : Option Str) (ws : List Str)
    (y : Str) :
    rxnStep ⟨r, fn, ws⟩ (tag12 ++ y) =
      some ⟨(rxnApply (pyStrip tag12) (pyStrip y) r).1, some (pyStrip tag12),
            ws ++ (rxnApply (pyStrip tag12) (pyStrip y) r).2⟩ := by
  simp only [rxnStep, take12_append hlen, drop12_append hlen, if_neg hnb, if_neg hne]

lemma rxnStep_cont (r : KRxn) (tg : Str) (ws : List Str) (y : Str)
    (hne : tg ≠ "ENTRY".toList) :
    rxnStep ⟨r, some tg, ws⟩ (blank12 ++ y) =
      some ⟨(rxnApply tg (pyStrip y) r).1, some tg, ws ++ (rxnApply tg (pyStrip y) r).2⟩ := by
  simp only [rxnStep, take12_append (show blank12.length = 12 by decide),
    drop12_append (show blank12.length = 12 by decide), eq_self_iff_true, if_true,
    if_neg hne]

lemma rxnGo_cons_step {st st' : RPState} {l : Str} (hterm : l.take 3 ≠ slash3)
    (hstep : rxnStep st l = some st') (rest : List Str) :
    rxnGo st (l :: rest) = rxnGo st' rest := by
  rw [rxnGo, if_neg hterm, hstep]

lemma rxnApply_NAME (v : Str) (r : KRxn) :
    rxnApply "NAME".toList v r = ({ r with name := r.name ++ [stripSemi v] }, []) := rfl

lemma rxnApply_unknown {t : Str} (v : Str) (r : KRxn) (htun : t ∉ allKeggTags) :
    rxnApply t v r = (r, [warnMsg t v]) := by
  have hne : ∀ tag ∈ allKeggTags, t ≠ tag := fun tag hm h => htun (h ▸ hm)
  unfold rxnApply
  rw [if_neg (hne _ (by decide)), if_neg (hne _ (by decide)), if_neg (hne _ (by decide)),
    if_neg (hne _ (by decide)), if_neg (hne _ (by decide)), if_neg (hne _ (by decide)),
    if_neg (hne _ (by decide)), if_neg (hne _ (by decide)), if_neg (hne _ (by decide)),
    if_neg (hne _ (by decide)), if_neg (hne _ (by decide)), if_neg (hne _ (by decide))]

lemma enzApply_unknown {t : Str} (v : Str) (e : KEnz) (htun : t ∉ allKeggTags) :
    enzApply t v e = e := by
  have hne : ∀ tag ∈ allKeggTags, t ≠ tag := fun tag hm h => htun (h ▸ hm)
  unfold enzApply
  rw [if_neg (hne _ (by decide)), if_neg (hne _ (by decide)), if_neg (hne _ (by decide)),
    if_neg (hne _ (by decide)), if_neg (hne _ (by decide)), if_neg (hne _ (by decide)),
    if_neg (hne _ (by decide)), if_neg (hne _ (by decide)), if_neg (hne _ (by decide)),
    if_neg (hne _ (by decide)), if_neg (hne _ (by decide))]

lemma padded_tag_ne_blank {t : Str} (ht1 : pyStrip t = t) (ht2 : t ≠ []) :
    t ++ List.replicate (12 - t.length) ' ' ≠ blank12 := by
  cases t with
  | nil => exact absurd rfl ht2
  | cons c t' =>
    intro heq
    have hc : isWS c = false := trimmed_head ht1 (by simp)
    have : (blank12 : Str).head? = some c := by rw [← heq]; rfl
    have hcsp : c = ' ' := by
      have h2 : some ' ' = some c := this
      exact (Option.some.injEq _ _ ▸ h2).symm
    rw [hcsp] at hc
    exact absurd hc (by decide)

lemma padded_tag_not_term {t : Str} (ht2 : t ≠ []) (hthead : t.head? ≠ some '/')
    (y : Str) : ((t ++ List.replicate (12 - t.length) ' ') ++ y).take 3 ≠ slash3 := by
  cases t with
  | nil => exact absurd rfl ht2
  | cons c t' =>
    intro heq
    rw [show (slash3 : Str) = '/' :: '/' :: '/' :: [] by decide] at heq
    rw [show List.take 3 ((c :: t') ++ List.replicate (12 - (c :: t').length) ' ' ++ y) =
      c :: List.take 2 (t' ++ List.replicate (12 - (c :: t').length) ' ' ++ y) from rfl] at heq
    injection heq with hc hrest
    exact hthead (by simp [hc])

/-- C2 (counterexample): on a record with one recognized field (NAME) and one
unrecognized field tag (XYZ), the reaction parser emits exactly one warning
but the enzyme parser emits none — the claim that every entity kind warns
exactly once is false for enzymes, whose `elif` chain has no warning branch. -/
theorem unknown_field_enzyme_silent_cex :
    KeggEnzyme.parse ["NAME        n1".toList, "XYZ         q".toList, "///".toList]
      = some { name := ["n1".toList] }
    ∧ KeggEnzyme.parseWarns ["NAME        n1".toList, "XYZ         q".toList, "///".toList]
      = some []
    ∧ KeggReaction.parseWarns ["NAME        n1".toList, "XYZ         q".toList, "///".toList]
      = some ["Skipping field XYZ with value q".toList] := by
  decide

/-- C2 (amended): a record with one recognized field (NAME, value `n`) and one
field tag `t` not in either dispatch table parses successfully for both entity
kinds and preserves the recognized field; the reaction parser emits exactly
one recoverable warning listing the unrecognized field name and its value,
while the enzyme parser silently skips the field and emits no warning. -/
theorem unknown_field_tolerance (t v n : Str)
    (ht1 : pyStrip t = t) (ht2 : t ≠ []) (ht3 : t.length ≤ 12)
    (hthead : t.head? ≠ some '/') (htun : t ∉ allKeggTags)
    (hv : pyStrip v = v) (hn1 : pyStrip n = n) (hn2 : stripSemi n = n) :
    KeggReaction.parse
        ["NAME        ".toList ++ n, (t ++ List.replicate (12 - t.length) ' ') ++ v, slash3]
      = some { name := [n] }
    ∧ KeggReaction.parseWarns
        ["NAME        ".toList ++ n, (t ++ List.replicate (12 - t.length) ' ') ++ v, slash3]
      = some [warnMsg t v]
    ∧ KeggEnzyme.parse
        ["NAME        ".toList ++ n, (t ++ List.replicate (12 - t.length) ' ') ++ v, slash3]
      = some { name := [n] }
    ∧ KeggEnzyme.parseWarns
        ["NAME        ".toList ++ n, (t ++ List.replicate (12 - t.length) ' ') ++ v, slash3]
      = some [] := by
  have hlen12 : (t ++ List.replicate (12 - t.length) ' ').length = 12 := by
    rw [List.length_append, List.length_replicate]
    omega
  have hneE : pyStrip (t ++ List.replicate (12 - t.length) ' ') ≠ "ENTRY".toList := by
    rw [pyStrip_append_spaces ht1]
    exact fun h => htun (h ▸ (show "ENTRY".toList ∈ allKeggTags by decide))
  have hs1 : rxnStep ⟨{}, none, []⟩ ("NAME        ".toList ++ n) =
      some ⟨{ name := [n] }, some "NAME".toList, []⟩ := by
    rw [rxnStep_field (show ("NAME        ".toList : Str).length = 12 by decide)
      (by decide) (by decide) {} none [] n,
      show pyStrip "NAME        ".toList = "NAME".toList by decide, hn1, rxnApply_NAME, hn2]
    rfl
  have hs2 : rxnStep ⟨{ name := [n] }, some "NAME".toList, []⟩
      ((t ++ List.replicate (12 - t.length) ' ') ++ v) =
      some ⟨{ name := [n] }, some t, [warnMsg t v]⟩ := by
    rw [rxnStep_field hlen12 (padded_tag_ne_blank ht1 ht2) hneE { name := [n] } _ [],
      pyStrip_append_spaces ht1, hv, rxnApply_unknown v _ htun]
    rfl
  have hgor : rxnGo ⟨{}, none, []⟩
      ["NAME        ".toList ++ n, (t ++ List.replicate (12 - t.length) ' ') ++ v, slash3] =
      some ⟨{ name := [n] }, some t, [warnMsg t v]⟩ := by
    rw [rxnGo_cons_step (field_not_term (by decide) (by decide) n) hs1,
      rxnGo_cons_step (padded_tag_not_term ht2 hthead v) hs2,
      rxnGo, if_pos (by decide)]
  have he1 : enzStep ⟨{}, none, []⟩ ("NAME        ".toList ++ n) =
      some ⟨{ name := [n] }, some "NAME".toList, []⟩ := by
    rw [enzStep_field (show ("NAME        ".toList : Str).length = 12 by decide)
      (by decide) (by decide) {} none [] n,
      show pyStrip "NAME        ".toList = "NAME".toList by decide, hn1, enzApply_NAME, hn2]
    rfl
  have he2 : enzStep ⟨{ name := [n] }, some "NAME".toList, []⟩
      ((t ++ List.replicate (12 - t.length) ' ') ++ v) =
      some ⟨{ name := [n] }, some t, []⟩ := by
    rw [enzStep_field hlen12 (padded_tag_ne_blank ht1 ht2) hneE { name := [n] } _ [],
      pyStrip_append_spaces ht1, hv, enzApply_unknown v _ htun]
  have hgoe : enzGo ⟨{}, none, []⟩
      ["NAME        ".toList ++ n, (t ++ List.replicate (12 - t.length) ' ') ++ v, slash3] =
      some ⟨{ name := [n] }, some t, []⟩ := by
    rw [enzGo_cons_step (field_not_term (by decide) (by decide) n) he1,
      enzGo_cons_step (padded_tag_not_term ht2 hthead v) he2,
      enzGo, if_pos (by decide)]
  refine ⟨?_, ?_, ?_, ?_⟩
  · unfold KeggReaction.parse
    rw [hgor]
    rfl
  · unfold KeggReaction.parseWarns
    rw [hgor]
    rfl
  · unfold KeggEnzyme.parse
    rw [hgoe]
    rfl
  · unfold KeggEnzyme.parseWarns
    rw [hgoe]
    rfl

/-- C2 (witness): the tolerance property at the concrete unknown tag `XYZ`. -/
theorem unknown_field_tolerance_witness :
    KeggReaction.parse
        ["NAME        ".toList ++ "n1".toList,
         ("XYZ".toList ++ List.replicate (12 - "XYZ".toList.length) ' ') ++ "q".toList, slash3]
      = some { name := ["n1".toList] }
    ∧ KeggReaction.parseWarns
        ["NAME        ".toList ++ "n1".toList,
         ("XYZ".toList ++ List.replicate (12 - "XYZ".toList.length) ' ') ++ "q".toList, slash3]
      = some [warnMsg "XYZ".toList "q".toList]
    ∧ KeggEnzyme.parse
        ["NAME        ".toList ++ "n1".toList,
         ("XYZ".toList ++ List.replicate (12 - "XYZ".toList.length) ' ') ++ "q".toList, slash3]
      = some { name := ["n1".toList] }
    ∧ KeggEnzyme.parseWarns
        ["NAME        ".toList ++ "n1".toList,
         ("XYZ".toList ++ List.replicate (12 - "XYZ".toList.length) ' ') ++ "q".toList, slash3]
      = some [] :=
  unknown_field_tolerance "XYZ".toList "q".toList "n1".toList (by decide) (by decide)
    (by decide) (by decide) (by decide) (by decide) (by decide) (by decide)

/-! ## KeggDatabase.store / KeggEnzymeDatabase.load: the sort-on-store pipeline -/

/-- Python text-file iteration (`for line in handle`): split a character stream
into lines after each newline character, keeping the newline; a final chunk
with no newline is also yielded. -/
def splitLines : Str → Str → List Str
  | [], acc => if acc = [] then [] else [acc]
  | c :: cs, acc =>
    if c = '\n' then (acc ++ ['\n']) :: splitLines cs [] else splitLines cs (acc ++ [c])

namespace KeggEnzymeDatabase

/-- `self.records.sort()`: cobra `DictList.sort` with its default key
`lambda i: i.id`, a stable sort lexicographic on the id string. -/
def sortRecs (recs : List KEnz) : List KEnz :=
  sortBy (fun a b => strLe (KeggEnzyme.fmtOptId a.id) (KeggEnzyme.fmtOptId b.id)) recs

/-- `KeggDatabase.store`: sort the records by id, convert each record with
`make_record` and write every line followed by `'\n'`.  The result is the
character stream written to the file.  The sort compares the id strings, so a
record whose id is `None` makes the Python sort raise `TypeError`; this is
modeled as failure whenever an id is missing. -/
def store (recs : List KEnz) : Option Str :=
  if recs.all (fun e => e.id.isSome) then
    some (concatLists
      ((concatLists ((sortRecs recs).map KeggEnzyme.make_record)).map (fun l => l ++ ['\n'])))
  else none

/-- The list comprehension of `KeggEnzymeDatabase.load`: construct a
`KeggEnzyme` from every record yielded by `get_record`, propagating a parse
failure. -/
def parseAll : List (List Str) → Option (List KEnz)
  | [] => some []
  | r :: rs =>
    match KeggEnzyme.parse r with
    | none => none
    | some e =>
      match parseAll rs with
      | none => none
      | some es => some (e :: es)

/-- `KeggEnzymeDatabase.load` into an empty database: iterate the lines of the
file's character stream, split them into records and parse each record. -/
def load (content : Str) : Option (List KEnz) :=
  parseAll (get_record (splitLines content []))

end KeggEnzymeDatabase

/-! ### Sorting lemmas for the pipeline -/

lemma strLe_total (a : Str) : ∀ b : Str, strLe a b = true ∨ strLe b a = true := by
  induction a with
  | nil => intro b; left; rfl
  | cons x xs ih =>
    intro b
    cases b with
    | nil => right; rfl
    | cons y ys =>
      unfold strLe
      rcases lt_trichotomy x y with h | h | h
      · left; rw [if_pos h]
      · subst h
        rw [if_neg (lt_irrefl x), if_pos rfl, if_neg (lt_irrefl x), if_pos rfl]
        exact ih ys
      · right; rw [if_pos h]

lemma strLe_trans : ∀ a b c : Str, strLe a b = true → strLe b c = true → strLe a c = true := by
  intro a
  induction a with
  | nil => intro b c _ _; rfl
  | cons x xs ih =>
    intro b c hab hbc
    cases b with
    | nil => simp [strLe] at hab
    | cons y ys =>
      cases c with
      | nil => simp [strLe] at hbc
      | cons z zs =>
        unfold strLe at hab hbc ⊢
        by_cases hxy : x < y
        · by_cases hyz : y < z
          · rw [if_pos (lt_trans hxy hyz)]
          · by_cases hyz2 : y = z
            · subst hyz2; rw [if_pos hxy]
            · rw [if_neg hyz, if_neg hyz2] at hbc; simp at hbc
        · by_cases hxy2 : x = y
          · subst hxy2
            rw [if_neg hxy, if_pos rfl] at hab
            by_cases hxz : x < z
            · rw [if_pos hxz]
            · by_cases hxz2 : x = z
              · subst hxz2
                rw [if_neg hxz, if_pos rfl] at hbc ⊢
                exact ih ys zs hab hbc
              · rw [if_neg hxz, if_neg hxz2] at hbc; simp at hbc
          · rw [if_neg hxy, if_neg hxy2] at hab; simp at hab

lemma insBy_perm (le : α → α → Bool) (x : α) :
    ∀ l : List α, List.Perm (insBy le x l) (x :: l) := by
  intro l
  induction l with
  | nil => exact List.Perm.refl _
  | cons y ys ih =>
    unfold insBy
    by_cases h : le x y = true
    · rw [if_pos h]
    · rw [if_neg h]
      exact (ih.cons y).trans (List.Perm.swap x y ys)

lemma sortBy_perm (le : α → α → Bool) : ∀ l : List α, List.Perm (sortBy le l) l := by
  intro l
  induction l with
  | nil => exact List.Perm.refl _
  | cons x xs ih => exact (insBy_perm le x (sortBy le xs)).trans (ih.cons x)

lemma insBy_sorted {le : α → α → Bool} (htot : ∀ a b, le a b = true ∨ le b a = true)
    (htr : ∀ a b c, le a b = true → le b c = true → le a c = true) (x : α) :
    ∀ l : List α, List.Pairwise (fun a b => le a b = true) l →
      List.Pairwise (fun a b => le a b = true) (insBy le x l) := by
  intro l
  induction l with
  | nil => intro _; exact List.pairwise_singleton _ _
  | cons y ys ih =>
    intro hl
    unfold insBy
    by_cases h : le x y = true
    · rw [if_pos h]
      refine List.Pairwise.cons ?_ hl
      intro z hz
      rcases List.mem_cons.mp hz with rfl | hz'
      · exact h
      · exact htr x y z h (List.rel_of_pairwise_cons hl hz')
    · rw [if_neg h]
      have hyx : le y x = true := (htot x y).resolve_left h
      refine List.Pairwise.cons ?_ (ih (List.Pairwise.of_cons hl))
      intro z hz
      rcases List.mem_cons.mp ((insBy_perm le x ys).mem_iff.mp hz) with rfl | hz'
      · exact hyx
      · exact List.rel_of_pairwise_cons hl hz'

lemma sortBy_sorted {le : α → α → Bool} (htot : ∀ a b, le a b = true ∨ le b a = true)
    (htr : ∀ a b c, le a b = true → le b c = true → le a c = true) :
    ∀ l : List α, List.Pairwise (fun a b => le a b = true) (sortBy le l) := by
  intro l
  induction l with
  | nil => exact List.Pairwise.nil
  | cons x xs ih => exact insBy_sorted htot htr x (sortBy le xs) ih

lemma mem_concatLists {x : α} : ∀ xss : List (List α),
    x ∈ concatLists xss ↔ ∃ xs ∈ xss, x ∈ xs := by
  intro xss
  induction xss with
  | nil => simp [concatLists]
  | cons a as ih =>
    simp only [concatLists, List.mem_append, ih, List.mem_cons]
    constructor
    · rintro (hx | ⟨xs, hxs, hx⟩)
      · exact ⟨a, Or.inl rfl, hx⟩
      · exact ⟨xs, Or.inr hxs, hx⟩
    · rintro ⟨xs, (rfl | hxs), hx⟩
      · exact Or.inl hx
      · exact Or.inr ⟨xs, hxs, hx⟩

lemma stripNl_eq_self {l : Str} (h : '\n' ∉ l) : stripNl l = l := by
  unfold stripNl
  refine pyStripP_eq_self _ l ?_ ?_
  · intro c hc
    have hcm : c ∈ l := List.mem_of_mem_head? hc
    have hne : c ≠ '\n' := fun hq => h (hq ▸ hcm)
    show decide (c = '\n') = false
    exact decide_eq_false hne
  · intro c hc
    have hcm : c ∈ l := List.mem_of_mem_getLast? hc
    have hne : c ≠ '\n' := fun hq => h (hq ▸ hcm)
    show decide (c = '\n') = false
    exact decide_eq_false hne

lemma stripNl_chunk {l : Str} (h : '\n' ∉ l) : stripNl (l ++ ['\n']) = l := by
  have hself := stripNl_eq_self h
  obtain ⟨hd, hr⟩ := parts_of_pyStripP_eq_self hself
  show List.dropWhile _ (pyRStrip _ (l ++ ['\n'])) = l
  rw [pyRStrip_append_p (by decide), hr, hd]

lemma chunk_take3 (l : Str) : ((l ++ ['\n']).take 3 = slash3) ↔ (l.take 3 = slash3) := by
  rcases l with _ | ⟨a, _ | ⟨b, _ | ⟨c, rest⟩⟩⟩
  · constructor <;> (intro hc; exact absurd hc (by decide))
  · constructor <;> (intro hc; simp [slash3] at hc)
  · constructor <;> (intro hc; simp [slash3] at hc)
  · constructor <;> (intro hc; simpa using hc)

lemma splitLines_line : ∀ l : Str, '\n' ∉ l → ∀ rest acc : Str,
    splitLines (l ++ '\n' :: rest) acc = (acc ++ (l ++ ['\n'])) :: splitLines rest [] := by
  intro l
  induction l with
  | nil =>
    intro _ rest acc
    show splitLines ('\n' :: rest) acc = _
    rw [splitLines, if_pos rfl]
    simp
  | cons c cs ih =>
    intro h rest acc
    have hc : ¬(c = '\n') := fun hq => h (by simp [hq])
    show splitLines (c :: (cs ++ '\n' :: rest)) acc = _
    rw [splitLines, if_neg hc, ih (fun hm => h (List.mem_cons_of_mem c hm)) rest (acc ++ [c])]
    simp

lemma splitLines_concat : ∀ ls : List Str, (∀ l ∈ ls, '\n' ∉ l) →
    splitLines (concatLists (ls.map (fun l => l ++ ['\n']))) [] =
      ls.map (fun l => l ++ ['\n']) := by
  intro ls
  induction ls with
  | nil => intro _; rfl
  | cons l rest ih =>
    intro h
    show splitLines ((l ++ ['\n']) ++ concatLists (rest.map (fun l => l ++ ['\n']))) [] = _
    rw [List.append_assoc, List.singleton_append,
      splitLines_line l (h l (by simp)) _ [],
      ih (fun x hx => h x (List.mem_cons_of_mem l hx))]
    simp

lemma getRecGo_chunks : ∀ ls : List Str, (∀ l ∈ ls, '\n' ∉ l) → ∀ acc,
    getRecGo (ls.map (fun l => l ++ ['\n'])) acc = getRecGo ls acc := by
  intro ls
  induction ls with
  | nil => intro _ acc; rfl
  | cons l rest ih =>
    intro h acc
    have hnl : '\n' ∉ l := h l (by simp)
    show getRecGo ((l ++ ['\n']) :: rest.map (fun l => l ++ ['\n'])) acc = getRecGo (l :: rest) acc
    rw [getRecGo, getRecGo, stripNl_chunk hnl, stripNl_eq_self hnl]
    by_cases hterm : l.take 3 = slash3
    · rw [if_pos ((chunk_take3 l).mpr hterm), if_pos hterm,
        ih (fun x hx => h x (List.mem_cons_of_mem l hx)) []]
    · rw [if_neg (fun hq => hterm ((chunk_take3 l).mp hq)), if_neg hterm,
        ih (fun x hx => h x (List.mem_cons_of_mem l hx)) (acc ++ [l])]

lemma getRecGo_record : ∀ body : List Str, (∀ l ∈ body, l.take 3 ≠ slash3) →
    (∀ l ∈ body, stripNl l = l) → ∀ rest acc,
    getRecGo (body ++ slash3 :: rest) acc = (acc ++ (body ++ [slash3])) :: getRecGo rest [] := by
  intro body
  induction body with
  | nil =>
    intro _ _ rest acc
    show getRecGo (slash3 :: rest) acc = _
    rw [getRecGo, show stripNl slash3 = slash3 by decide, if_pos (by decide)]
    simp
  | cons l ls ih =>
    intro hb hs rest acc
    show getRecGo (l :: (ls ++ slash3 :: rest)) acc = _
    rw [getRecGo, hs l (by simp), if_neg (hb l (by simp)),
      ih (fun x hx => hb x (List.mem_cons_of_mem l hx))
        (fun x hx => hs x (List.mem_cons_of_mem l hx)) rest (acc ++ [l])]
    simp

lemma getRecGo_concat : ∀ recss : List (List Str),
    (∀ r ∈ recss, ∃ body, r = body ++ [slash3] ∧ ∀ l ∈ body, l.take 3 ≠ slash3) →
    (∀ r ∈ recss, ∀ l ∈ r, stripNl l = l) →
    get_record (concatLists recss) = recss := by
  intro recss
  induction recss with
  | nil => intro _ _; rfl
  | cons r rs ih =>
    intro hterm hstrip
    obtain ⟨body, rfl, hb⟩ := hterm r (by simp)
    show getRecGo (((body ++ [slash3]) ++ concatLists rs)) [] = _
    rw [List.append_assoc, List.singleton_append,
      getRecGo_record body hb
        (fun l hl => hstrip (body ++ [slash3]) (by simp) l (List.mem_append_left _ hl)) _ []]
    rw [show getRecGo (concatLists rs) [] = get_record (concatLists rs) from rfl,
      ih (fun x hx => hterm x (List.mem_cons_of_mem _ hx))
        (fun x hx => hstrip x (List.mem_cons_of_mem _ hx))]
    simp

lemma make_record_body (e : KEnz) :
    ∃ body, KeggEnzyme.make_record e = body ++ [slash3] ∧ ∀ l ∈ body, l.take 3 ≠ slash3 := by
  refine ⟨KeggEnzyme.entryLine e
    :: (KeggEnzyme.semiSeg "NAME        ".toList e.name
        ++ KeggEnzyme.semiSeg "CLASS       ".toList e.classname
        ++ (match e.sysname with
            | none => []
            | some s => ["SYSNAME     ".toList ++ s])
        ++ KeggEnzyme.semiSeg "REACTION    ".toList e.reaction
        ++ KeggEnzyme.semiSeg "ALL_REAC    ".toList e.allreactions
        ++ KeggEnzyme.semiSeg "SUBSTRATE   ".toList e.substrate
        ++ KeggEnzyme.semiSeg "PRODUCT     ".toList e.product
        ++ KeggEnzyme.commentSeg e.comment
        ++ KeggEnzyme.pairSeg "PATHWAY     ".toList e.pathway
        ++ KeggEnzyme.pairSeg "ORTHOLOGY   ".toList e.orthology
        ++ KeggEnzyme.genesSeg e.genes), ?_, ?_⟩
  · rw [List.cons_append]
    rfl
  · intro l hl
    rcases List.mem_cons.mp hl with rfl | hl'
    · exact entryLine_not_term e
    · simp only [List.mem_append] at hl'
      rcases hl' with ((((((((((h1 | h2) | h3) | h4) | h5) | h6) | h7) | h8) | h9) | h10) | h11)
      · exact semiSeg_noTerm (by decide) (by decide) _ l h1
      · exact semiSeg_noTerm (by decide) (by decide) _ l h2
      · revert h3
        cases e.sysname with
        | none => intro h3; simp at h3
        | some s =>
          intro h3
          simp only [List.mem_singleton] at h3
          subst h3
          rw [List.take_append_of_le_length (by decide)]
          decide
      · exact semiSeg_noTerm (by decide) (by decide) _ l h4
      · exact semiSeg_noTerm (by decide) (by decide) _ l h5
      · exact semiSeg_noTerm (by decide) (by decide) _ l h6
      · exact semiSeg_noTerm (by decide) (by decide) _ l h7
      · exact commentSeg_noTerm _ l h8
      · exact pairSeg_noTerm (by decide) (by decide) _ l h9
      · exact pairSeg_noTerm (by decide) (by decide) _ l h10
      · exact genesSeg_noTerm _ l h11

lemma parseAll_map (es : List KEnz) (h : ∀ e ∈ es, EnzymeWF e) :
    KeggEnzymeDatabase.parseAll (es.map KeggEnzyme.make_record) = some es := by
  induction es with
  | nil => rfl
  | cons e rest ih =>
    show KeggEnzymeDatabase.parseAll
      (KeggEnzyme.make_record e :: rest.map KeggEnzyme.make_record) = _
    rw [KeggEnzymeDatabase.parseAll, keggEnzyme_roundtrip_aux e (h e (by simp)),
      ih (fun x hx => h x (List.mem_cons_of_mem e hx))]

def enzSampleA : KEnz := { id := some "1.1.1.1".toList }

def enzSampleB : KEnz := { id := some "1.1.2.1".toList }

/-- C5: sort-on-store.  For every non-empty list of well-formed enzyme records
whose record lines carry no embedded newline, `store` succeeds and writing then
re-`load`-ing the file yields exactly the records sorted in ascending
lexicographic order of their id strings — a permutation of the original
records, sorted by id, regardless of the original insertion order. -/
theorem sort_on_store (recs : List KEnz) (hne : recs ≠ [])
    (hwf : ∀ e ∈ recs, EnzymeWF e)
    (hnl : ∀ e ∈ recs, ∀ l ∈ KeggEnzyme.make_record e, '\n' ∉ l) :
    ∃ content : Str, KeggEnzymeDatabase.store recs = some content
      ∧ KeggEnzymeDatabase.load content = some (KeggEnzymeDatabase.sortRecs recs)
      ∧ List.Perm (KeggEnzymeDatabase.sortRecs recs) recs
      ∧ List.Pairwise
          (fun a b => strLe (KeggEnzyme.fmtOptId a.id) (KeggEnzyme.fmtOptId b.id) = true)
          (KeggEnzymeDatabase.sortRecs recs) := by
  have hperm : List.Perm (KeggEnzymeDatabase.sortRecs recs) recs := sortBy_perm _ recs
  have hwfs : ∀ e ∈ KeggEnzymeDatabase.sortRecs recs, EnzymeWF e :=
    fun e he => hwf e (hperm.mem_iff.mp he)
  have hnls : ∀ e ∈ KeggEnzymeDatabase.sortRecs recs, ∀ l ∈ KeggEnzyme.make_record e, '\n' ∉ l :=
    fun e he => hnl e (hperm.mem_iff.mp he)
  have hall : recs.all (fun e => e.id.isSome) = true := by
    rw [List.all_eq_true]
    intro e he
    obtain ⟨⟨i, hid, _⟩, _⟩ := hwf e he
    rw [hid]
    rfl
  have hnlAll : ∀ l ∈ concatLists ((KeggEnzymeDatabase.sortRecs recs).map KeggEnzyme.make_record),
      '\n' ∉ l := by
    intro l hl
    rw [mem_concatLists] at hl
    obtain ⟨xs, hxs, hlx⟩ := hl
    obtain ⟨e, he, rfl⟩ := List.mem_map.mp hxs
    exact hnls e he l hlx
  refine ⟨_, by rw [KeggEnzymeDatabase.store, if_pos hall], ?_, hperm, ?_⟩
  · have h1 : get_record ((concatLists ((KeggEnzymeDatabase.sortRecs recs).map
          KeggEnzyme.make_record)).map (fun l => l ++ ['\n'])) =
        get_record (concatLists ((KeggEnzymeDatabase.sortRecs recs).map
          KeggEnzyme.make_record)) :=
      getRecGo_chunks _ hnlAll []
    have h2 : get_record (concatLists ((KeggEnzymeDatabase.sortRecs recs).map
          KeggEnzyme.make_record)) =
        (KeggEnzymeDatabase.sortRecs recs).map KeggEnzyme.make_record :=
      getRecGo_concat _
        (fun r hr => by
          obtain ⟨e, _, rfl⟩ := List.mem_map.mp hr
          exact make_record_body e)
        (fun r hr l hl => by
          obtain ⟨e, he, rfl⟩ := List.mem_map.mp hr
          exact stripNl_eq_self (hnls e he l hl))
    rw [KeggEnzymeDatabase.load, splitLines_concat _ hnlAll, h1, h2]
    exact parseAll_map _ hwfs
  · have htot : ∀ a b : KEnz,
        strLe (KeggEnzyme.fmtOptId a.id) (KeggEnzyme.fmtOptId b.id) = true
        ∨ strLe (KeggEnzyme.fmtOptId b.id) (KeggEnzyme.fmtOptId a.id) = true :=
      fun a b => strLe_total _ _
    have htr : ∀ a b c : KEnz,
        strLe (KeggEnzyme.fmtOptId a.id) (KeggEnzyme.fmtOptId b.id) = true →
        strLe (KeggEnzyme.fmtOptId b.id) (KeggEnzyme.fmtOptId c.id) = true →
        strLe (KeggEnzyme.fmtOptId a.id) (KeggEnzyme.fmtOptId c.id) = true :=
      fun a b c hab hbc => strLe_trans _ _ _ hab hbc
    exact sortBy_sorted htot htr recs

/-- C5 (witness): two minimal enzymes inserted in descending id order are
stored and re-loaded in ascending id order. -/
theorem sort_on_store_witness :
    (∀ e ∈ [enzSampleB, enzSampleA], EnzymeWF e)
    ∧ (∃ content : Str, KeggEnzymeDatabase.store [enzSampleB, enzSampleA] = some content
        ∧ KeggEnzymeDatabase.load content
            = some (KeggEnzymeDatabase.sortRecs [enzSampleB, enzSampleA])
        ∧ List.Perm (KeggEnzymeDatabase.sortRecs [enzSampleB, enzSampleA])
            [enzSampleB, enzSampleA]
        ∧ List.Pairwise
            (fun a b => strLe (KeggEnzyme.fmtOptId a.id) (KeggEnzyme.fmtOptId b.id) = true)
            (KeggEnzymeDatabase.sortRecs [enzSampleB, enzSampleA])) := by
  have hwf : ∀ e ∈ [enzSampleB, enzSampleA], EnzymeWF e := by
    intro e he
    simp only [List.mem_cons, List.not_mem_nil, or_false] at he
    rcases he with rfl | rfl
    · exact ⟨⟨"1.1.2.1".toList, rfl, by decide, fun h => by decide, fun _ => by decide⟩,
        by decide, by decide, by decide, fun s hs => Option.noConfusion hs, by decide, rfl,
        by decide, by decide, by decide, by decide, by decide, by decide, by decide, by decide⟩
    · exact ⟨⟨"1.1.1.1".toList, rfl, by decide, fun h => by decide, fun _ => by decide⟩,
        by decide, by decide, by decide, fun s hs => Option.noConfusion hs, by decide, rfl,
        by decide, by decide, by decide, by decide, by decide, by decide, by decide, by decide⟩
  exact ⟨hwf, sort_on_store [enzSampleB, enzSampleA] (by decide) hwf (by decide)⟩

/-! ## OTU reconciliation scenario lemmas -/

lemma pyReplace_not_found {pat : Str} (rep : Str) :
    ∀ {s : Str}, findSubIdx pat s = none → pyReplace s pat rep = s := by
  intro s
  induction s with
  | nil => intro _; rw [pyReplace]
  | cons c cs ih =>
    intro h
    rw [findSubIdx] at h
    by_cases hp : pat.isPrefixOf (c :: cs) = true
    · rw [if_pos hp] at h
      exact Option.noConfusion h
    · rw [if_neg hp] at h
      have htail : findSubIdx pat cs = none := by
        cases hcs : findSubIdx pat cs with
        | none => rfl
        | some k => rw [hcs] at h; exact Option.noConfusion h
      rw [pyReplace, dif_neg (fun hq => hp hq.2), ih htail]

def orgEcoli1 : KOrg :=
  { id := "T00001".toList, code := "eco".toList, name := "Escherichia coli K-12".toList,
    taxonomy := ["Prokaryotes".toList, "Bacteria".toList],
    otu_representative := 0, search_name := "Escherichia coli K-12".toList }

def orgEcoli2 : KOrg :=
  { id := "T00002".toList, code := "ecs".toList, name := "Escherichia coli O157".toList,
    taxonomy := ["Prokaryotes".toList, "Bacteria".toList],
    otu_representative := 1, search_name := "Escherichia coli O157".toList }

def otuLine : Str := "otu001\t1\tT00001\tEscherichia coli K-12".toList

lemma repsFromLine_otuLine :
    repsFromLine [] otuLine = some [("Escherichia coli K-12".toList, "T00001".toList)] := by
  unfold repsFromLine otuLine
  rw [show pyStrip "otu001\t1\tT00001\tEscherichia coli K-12".toList =
    "otu001\t1\tT00001\tEscherichia coli K-12".toList by decide]
  rw [show pySplitSep '\t' "otu001\t1\tT00001\tEscherichia coli K-12".toList =
    ["otu001".toList, ['1'], "T00001".toList, "Escherichia coli K-12".toList] by decide]
  simp only [List.getElem?_cons_zero, List.getElem?_cons_succ]
  rw [if_pos trivial]
  rw [pyReplace_not_found []
      (show findSubIdx "substr.".toList "Escherichia coli K-12".toList = none by decide),
    pyReplace_not_found []
      (show findSubIdx "str.".toList "Escherichia coli K-12".toList = none by decide)]
  rfl

lemma repsFromLines_otuLine :
    repsFromLines [otuLine] = some [("Escherichia coli K-12".toList, "T00001".toList)] := by
  unfold repsFromLines
  rw [List.foldlM_cons, repsFromLine_otuLine]
  rfl

lemma optBindSome {α β : Type} (a : α) (f : α → Option β) : (some a >>= f) = f a := rfl

/-- C6: exact-match OTU selection.  A database of two prokaryote organisms
sharing the 2-word genus+species lookup key, and an OTU file whose single
flagged representative name equals the first organism's search name exactly
(so any similarity scorer gives it ratio 100, which meets the cutoff 97,
while the other candidate scores at most 99): `set_representatives` resets
the second organism's stale flag, marks exactly the first organism as the
OTU representative, and reports it `selected` and the other candidate
`skipped`. -/
theorem otu_exact_match_selected (fr fp ft : Str → Str → Nat)
    (h100 : fr "Escherichia coli K-12".toList "Escherichia coli K-12".toList = 100)
    (h99 : fr "Escherichia coli K-12".toList "Escherichia coli O157".toList ≤ 99) :
    KeggOrganismDatabase.set_representatives fr fp ft
        { records := [orgEcoli1, orgEcoli2], code_to_id := [] } [otuLine]
      = some
        ({ records := [{ orgEcoli1 with otu_representative := 1 },
                       { orgEcoli2 with otu_representative := 0 }],
           code_to_id := [] },
         [⟨"Escherichia coli K-12".toList, "T00001".toList, "Escherichia coli K-12".toList,
           "T00001".toList, 100, 0, 0, "selected".toList⟩,
          ⟨"Escherichia coli K-12".toList, "T00001".toList, "Escherichia coli O157".toList,
           "T00002".toList, fr "Escherichia coli K-12".toList "Escherichia coli O157".toList,
           0, 0, "skipped".toList⟩]) := by
  obtain ⟨r2, hr2⟩ : ∃ n, fr "Escherichia coli K-12".toList "Escherichia coli O157".toList = n :=
    ⟨_, rfl⟩
  rw [hr2] at h99 ⊢
  have hd1 : r2 ≤ 100 := by omega
  have hd2 : ¬(r2 = 100) := by omega
  have hms : mkMatches fr "Escherichia coli K-12".toList
      (List.map (fun o => { o with otu_representative := 0 }) [orgEcoli1, orgEcoli2]) [0, 1]
      = some [⟨0, "Escherichia coli K-12".toList, "Escherichia coli K-12".toList,
               fr "Escherichia coli K-12".toList "Escherichia coli K-12".toList, 0, 0, false⟩,
              ⟨1, "Escherichia coli O157".toList, "Escherichia coli O157".toList,
               fr "Escherichia coli K-12".toList "Escherichia coli O157".toList, 0, 0, false⟩] :=
    rfl
  rw [h100, hr2] at hms
  have hsort : sortMatches
      [⟨0, "Escherichia coli K-12".toList, "Escherichia coli K-12".toList, 100, 0, 0, false⟩,
       ⟨1, "Escherichia coli O157".toList, "Escherichia coli O157".toList, r2, 0, 0, false⟩]
      = [⟨0, "Escherichia coli K-12".toList, "Escherichia coli K-12".toList, 100, 0, 0, false⟩,
         ⟨1, "Escherichia coli O157".toList, "Escherichia coli O157".toList, r2, 0, 0, false⟩] := by
    show (if decide (r2 ≤ 100) = true
        then [(⟨0, "Escherichia coli K-12".toList, "Escherichia coli K-12".toList, 100, 0, 0, false⟩ : MatchRec),
              (⟨1, "Escherichia coli O157".toList, "Escherichia coli O157".toList, r2, 0, 0, false⟩ : MatchRec)]
        else (⟨1, "Escherichia coli O157".toList, "Escherichia coli O157".toList, r2, 0, 0, false⟩ : MatchRec)
          :: insBy (fun a b : MatchRec => decide (b.rv ≤ a.rv))
              (⟨0, "Escherichia coli K-12".toList, "Escherichia coli K-12".toList, 100, 0, 0, false⟩ : MatchRec) [])
      = [(⟨0, "Escherichia coli K-12".toList, "Escherichia coli K-12".toList, 100, 0, 0, false⟩ : MatchRec),
         (⟨1, "Escherichia coli O157".toList, "Escherichia coli O157".toList, r2, 0, 0, false⟩ : MatchRec)]
    rw [if_pos (decide_eq_true hd1)]
  have hmark : markPossible
      (fun m => decide (m.rv = 100))
      [⟨0, "Escherichia coli K-12".toList, "Escherichia coli K-12".toList, 100, 0, 0, false⟩,
       ⟨1, "Escherichia coli O157".toList, "Escherichia coli O157".toList, r2, 0, 0, false⟩]
      = [⟨0, "Escherichia coli K-12".toList, "Escherichia coli K-12".toList, 100, 0, 0, true⟩,
         ⟨1, "Escherichia coli O157".toList, "Escherichia coli O157".toList, r2, 0, 0, false⟩] := by
    show (if decide ((100 : Nat) = 100) = true
        then (⟨0, "Escherichia coli K-12".toList, "Escherichia coli K-12".toList, 100, 0, 0, true⟩ : MatchRec)
        else (⟨0, "Escherichia coli K-12".toList, "Escherichia coli K-12".toList, 100, 0, 0, false⟩ : MatchRec))
      :: (if decide (r2 = 100) = true
        then (⟨1, "Escherichia coli O157".toList, "Escherichia coli O157".toList, r2, 0, 0, true⟩ : MatchRec)
        else (⟨1, "Escherichia coli O157".toList, "Escherichia coli O157".toList, r2, 0, 0, false⟩ : MatchRec))
      :: []
      = [(⟨0, "Escherichia coli K-12".toList, "Escherichia coli K-12".toList, 100, 0, 0, true⟩ : MatchRec),
         (⟨1, "Escherichia coli O157".toList, "Escherichia coli O157".toList, r2, 0, 0, false⟩ : MatchRec)]
    rw [if_pos (by decide), if_neg (fun h => hd2 (of_decide_eq_true h))]
  unfold KeggOrganismDatabase.set_representatives
  rw [if_neg (by decide)]
  dsimp only
  rw [repsFromLines_otuLine]
  simp only [optBindSome]
  rw [show buildLookup (List.map (fun o => { o with otu_representative := 0 })
        [orgEcoli1, orgEcoli2]) 0 [] = some [("Escherichia coli".toList, [0, 1])] by decide]
  simp only [optBindSome]
  rw [List.foldlM_cons]
  unfold procRep
  dsimp only
  rw [show assocGet [("Escherichia coli".toList, [0, 1])]
        (lookupKey "Escherichia coli K-12".toList) = some [0, 1] by decide]
  dsimp only
  rw [hms]
  simp only [optBindSome]
  rw [hsort]
  simp only [List.getElem?_cons_zero, optBindSome]
  dsimp only
  rw [if_pos (show MATCH_CUTOFF ≤ 100 by decide)]
  rw [hmark]
  have hfil : List.filter (fun x => x.possible)
      [(⟨0, "Escherichia coli K-12".toList, "Escherichia coli K-12".toList, 100, 0, 0, true⟩ : MatchRec),
       ⟨1, "Escherichia coli O157".toList, "Escherichia coli O157".toList, r2, 0, 0, false⟩]
      = [⟨0, "Escherichia coli K-12".toList, "Escherichia coli K-12".toList, 100, 0, 0, true⟩] := rfl
  have hfne : ¬(List.filter (fun x => x.possible)
      [(⟨0, "Escherichia coli K-12".toList, "Escherichia coli K-12".toList, 100, 0, 0, true⟩ : MatchRec),
       ⟨1, "Escherichia coli O157".toList, "Escherichia coli O157".toList, r2, 0, 0, false⟩]
      = []) := by
    rw [hfil]
    simp
  rw [if_neg hfne, if_neg hfne]
  rw [hfil]
  dsimp only
  rw [show List.mapM (mkRow "Escherichia coli K-12".toList "T00001".toList false
        [(⟨0, "Escherichia coli K-12".toList, "Escherichia coli K-12".toList, 100, 0, 0, true⟩ : MatchRec)].length
        (setRepAt (List.map (fun o => { o with otu_representative := 0 })
          [orgEcoli1, orgEcoli2]) 0))
        [(⟨0, "Escherichia coli K-12".toList, "Escherichia coli K-12".toList, 100, 0, 0, true⟩ : MatchRec),
         ⟨1, "Escherichia coli O157".toList, "Escherichia coli O157".toList, r2, 0, 0, false⟩]
      = some [⟨"Escherichia coli K-12".toList, "T00001".toList, "Escherichia coli K-12".toList,
               "T00001".toList, 100, 0, 0, "selected".toList⟩,
              ⟨"Escherichia coli K-12".toList, "T00001".toList, "Escherichia coli O157".toList,
               "T00002".toList, r2, 0, 0, "skipped".toList⟩]
      from rfl]
  simp only [optBindSome]
  rw [List.foldlM_nil]
  rfl

/-- C6 (witness): the scenario at a concrete similarity scorer that gives 100
on equal strings and 0 otherwise. -/
theorem otu_exact_match_selected_witness :
    (fun a b : Str => if a = b then 100 else 0)
        "Escherichia coli K-12".toList "Escherichia coli K-12".toList = 100
    ∧ (fun a b : Str => if a = b then 100 else 0)
        "Escherichia coli K-12".toList "Escherichia coli O157".toList ≤ 99
    ∧ KeggOrganismDatabase.set_representatives
        (fun a b : Str => if a = b then 100 else 0) (fun _ _ => 0) (fun _ _ => 0)
        { records := [orgEcoli1, orgEcoli2], code_to_id := [] } [otuLine]
      = some
        ({ records := [{ orgEcoli1 with otu_representative := 1 },
                       { orgEcoli2 with otu_representative := 0 }],
           code_to_id := [] },
         [⟨"Escherichia coli K-12".toList, "T00001".toList, "Escherichia coli K-12".toList,
           "T00001".toList, 100, 0, 0, "selected".toList⟩,
          ⟨"Escherichia coli K-12".toList, "T00001".toList, "Escherichia coli O157".toList,
           "T00002".toList,
           (fun a b : Str => if a = b then 100 else 0)
             "Escherichia coli K-12".toList "Escherichia coli O157".toList,
           0, 0, "skipped".toList⟩]) :=
  ⟨by decide, by decide,
    otu_exact_match_selected (fun a b : Str => if a = b then 100 else 0)
      (fun _ _ => 0) (fun _ _ => 0) (by decide) (by decide)⟩
